import Mathlib

/-!
Verification of the rag backend core against its design specification.

The development shallowly embeds the Python sources:

* `src/services/rag_backend/domain/job_recovery.py` (checkpoint / resume logic),
* `src/backend/src/adapters/transport/handlers/router.py` (request routing and
  the index consistency guard),
* `src/backend/src/adapters/transport/server.py` (framing codec, handshake and
  serving loop),
* `src/backend/src/application/reindex_service.py` (reindex orchestration).

Modelling conventions used throughout:

* timestamps are opaque instants, modelled as `Nat`; a clock is passed in as a
  value (the Python services read `self._clock()`; successive reads within one
  call are not distinguished by any claim, so one instant per call suffices);
* Python floats are modelled as exact rationals (`Rat`); every float the code
  computes here is a ratio of small integers, and the claims are about the
  mathematical values of those ratios;
* fallible code (Python `raise ValueError` / custom exceptions) is modelled
  with `Except`, carrying the message text of the corresponding `raise`;
* frozen dataclasses are Lean structures; `dataclasses.replace` is structure
  update.  The embedding is pure, so the source's non-mutation of inputs holds
  by construction.
-/

/-! ## Data model

Modelled from the spec: the module `services/rag_backend/domain/models.py` is
not part of the source snapshot (only its importer `job_recovery.py` is), so
the job value object follows §3 of the spec — job_id, source_alias, status
(QUEUED|RUNNING|SUCCEEDED|FAILED|CANCELLED), requested_at/started_at/
completed_at, documents_processed, stage, percent_complete, error_message,
trigger (INIT|MANUAL|SCHEDULED) — which coincides field for field with the
dataclass `IngestionJob` in `src/backend/src/ports/ingestion.py` (lines
26-111), used by the reindex orchestrator below.
-/

/-- Opaque instant of time (`datetime` in the source). -/
abbrev Timestamp := Nat

deriving instance DecidableEq for Except

/-- `IngestionStatus` from `ports/ingestion.py` lines 26-33. -/
inductive IngestionStatus where
  | queued
  | running
  | succeeded
  | failed
  | cancelled
  deriving DecidableEq, Repr

/-- `IngestionTrigger` from `ports/ingestion.py` lines 36-41. -/
inductive IngestionTrigger where
  | init
  | manual
  | scheduled
  deriving DecidableEq, Repr

/-- `IngestionJob` frozen dataclass (`ports/ingestion.py` lines 97-111;
`percent_complete: float | None` is modelled as `Option Rat`). -/
structure IngestionJob where
  job_id : String
  source_alias : String
  status : IngestionStatus
  requested_at : Timestamp
  started_at : Option Timestamp := none
  completed_at : Option Timestamp := none
  documents_processed : Nat := 0
  stage : Option String := none
  percent_complete : Option Rat := none
  error_message : Option String := none
  trigger : IngestionTrigger := .manual
  deriving DecidableEq, Repr

/-- `Checkpoint` frozen dataclass (`job_recovery.py` lines 23-38). -/
structure Checkpoint where
  processed_document_ids : List String
  percent_complete : Rat
  captured_at : Timestamp
  deriving DecidableEq, Repr

/-- `ResumePlan` frozen dataclass (`job_recovery.py` lines 41-58). -/
structure ResumePlan where
  remaining_document_ids : List String
  percent_complete : Rat
  resume_stage : String
  recovery_started_at : Timestamp
  deriving DecidableEq, Repr

namespace JobRecoveryService

/-- The `ordered_processed` accumulation loop of
`JobRecoveryService.record_progress` (`job_recovery.py` lines 116-121):
walk `document_ids` in order and keep those in the processed set. -/
def ordered_processed (processed_set : List String) : List String → List String
  | [] => []
  | identifier :: rest =>
    if identifier ∈ processed_set then identifier :: ordered_processed processed_set rest
    else ordered_processed processed_set rest

/-- `JobRecoveryService.record_progress` (`job_recovery.py` lines 79-136).
`processed_document_ids` is an iterable read only through `set(...)`
membership, so a `List String` argument is faithful. -/
def record_progress (job : IngestionJob) (processed_document_ids : List String)
    (document_ids : List String) (now : Timestamp) : Except String Checkpoint :=
  if job.status ≠ .running then
    .error "only running jobs can be checkpointed"
  else
    let ordered := ordered_processed processed_document_ids document_ids
    if document_ids = [] then
      .ok { processed_document_ids := [], percent_complete := 0, captured_at := now }
    else
      .ok { processed_document_ids := ordered
            percent_complete := (ordered.length : Rat) / (document_ids.length : Rat) * 100
            captured_at := now }

/-- Python truthiness of `job.stage` (`str | None`): `None` and `""` are
falsy, any other string is truthy. -/
def stage_truthy : Option String → Bool
  | none => false
  | some s => s ≠ ""

/-- `JobRecoveryService.plan_resume` (`job_recovery.py` lines 138-202).
`resume_stage` defaults to `"resuming_ingestion"` and becomes
`f"resuming_(job.stage)"` when `job.stage` is truthy. -/
def plan_resume (job : IngestionJob) (checkpoint : Option Checkpoint)
    (document_ids : List String) (now : Timestamp) : Except String ResumePlan :=
  match checkpoint with
  | none => .error "checkpoint state is required to resume ingestion"
  | some cp =>
    if job.status ≠ .running ∧ job.status ≠ .failed then
      .error "only running or failed jobs can be resumed"
    else
      let remaining := document_ids.filter (fun identifier => identifier ∉ cp.processed_document_ids)
      let resume_stage :=
        if stage_truthy job.stage then "resuming_" ++ job.stage.getD "" else "resuming_ingestion"
      .ok { remaining_document_ids := remaining
            percent_complete := cp.percent_complete
            resume_stage := resume_stage
            recovery_started_at := now }

/-- `JobRecoveryService.resume` (`job_recovery.py` lines 204-272).  The
no-checkpoint branch builds a full-restart plan inline; `job.started_at or
plan.recovery_started_at` keeps the original `started_at` whenever it is set
(datetimes are always truthy in Python). -/
def resume (job : IngestionJob) (document_ids : List String)
    (checkpoint : Option Checkpoint) (now : Timestamp) :
    Except String (IngestionJob × ResumePlan) :=
  if document_ids = [] then
    .error "document_ids must contain at least one entry"
  else
    let planE : Except String ResumePlan :=
      match checkpoint with
      | some _ => plan_resume job checkpoint document_ids now
      | none =>
        .ok { remaining_document_ids := document_ids
              percent_complete := 0
              resume_stage :=
                "resuming_" ++ (if stage_truthy job.stage then job.stage.getD "" else "ingestion")
              recovery_started_at := now }
    match planE with
    | .error e => .error e
    | .ok plan =>
      if plan.remaining_document_ids = [] then
        .ok ({ job with
                status := .succeeded
                completed_at := some now
                documents_processed := document_ids.length
                stage := some "completed"
                percent_complete := some 100
                error_message := none }, plan)
      else
        let resume_started_at :=
          match job.started_at with
          | some t => t
          | none => plan.recovery_started_at
        let updated : IngestionJob :=
          { job with
              status := .running
              stage := some plan.resume_stage
              started_at := some resume_started_at
              completed_at := none
              percent_complete := some plan.percent_complete
              error_message := none }
        let updated :=
          match checkpoint with
          | some cp => { updated with documents_processed := cp.processed_document_ids.length }
          | none => updated
        .ok (updated, plan)

end JobRecoveryService

/-! ## Catalog data model (`src/backend/src/ports/ingestion.py`) -/

/-- `SourceType` (`ports/ingestion.py` lines 9-14). -/
inductive SourceType where
  | man
  | kiwix
  | info
  deriving DecidableEq, Repr

/-- `SourceStatus` (`ports/ingestion.py` lines 17-23). -/
inductive SourceStatus where
  | pending_validation
  | active
  | quarantined
  | error
  deriving DecidableEq, Repr

/-- `SourceRecord` frozen dataclass (`ports/ingestion.py` lines 64-76). -/
structure SourceRecord where
  alias_ : String
  type : SourceType
  location : String
  language : String
  size_bytes : Int
  last_updated : Timestamp
  status : SourceStatus
  checksum : Option String := none
  notes : Option String := none
  deriving DecidableEq, Repr

/-- `SourceSnapshot` frozen dataclass (`ports/ingestion.py` lines 79-84). -/
structure SourceSnapshot where
  alias_ : String
  checksum : String
  deriving DecidableEq, Repr

/-- `SourceCatalog` frozen dataclass (`ports/ingestion.py` lines 87-94). -/
structure SourceCatalog where
  version : Int
  updated_at : Timestamp
  sources : List SourceRecord := []
  snapshots : List SourceSnapshot := []
  deriving DecidableEq, Repr

/-- `TransportError` from
`src/backend/src/adapters/transport/handlers/errors.py` lines 6-34: an
HTTP-like status, a stable code and a message, with optional remediation. -/
structure TransportError where
  status : Int
  code : String
  message : String
  remediation : Option String := none
  deriving DecidableEq, Repr

/-- `IndexUnavailableError.__init__` (`errors.py` lines 37-46): a
`TransportError` whose status is fixed at 409. -/
def index_unavailable (code message remediation : String) : TransportError :=
  { status := 409, code := code, message := message, remediation := some remediation }

/-- CPython `repr` of the simple alias strings interpolated into guard
messages via `f"... {source.alias_!r} ..."`: the string wrapped in single
quotes (escaping of quotes or control characters inside the alias is not
modelled; no claim exercises it). -/
def py_repr (s : String) : String := "\x27" ++ s ++ "\x27"

/-! ## Index consistency guard
(`src/backend/src/adapters/transport/handlers/router.py` lines 302-358) -/

/-- The dict comprehension `(snapshot.alias: snapshot.checksum for snapshot in
catalog.snapshots)` followed by `.get(alias)` (`router.py` lines 330-342):
for duplicate aliases the later entry wins, hence lookup on the reversed
list. -/
def snapshot_checksum_get (snapshots : List SourceSnapshot) (key : String) : Option String :=
  (snapshots.reverse.find? (fun snap => snap.alias_ = key)).map (·.checksum)

/-- `_is_active_source` (`router.py` lines 351-358); statuses are typed in the
embedding, so the string-coercion branch is the identity. -/
def is_active_source (source : SourceRecord) : Bool := source.status = .active

/-- The per-source loop of `_ensure_index_current` (`router.py` lines
333-348): the first active source without a checksum, or whose checksum
differs from its snapshot's, raises `INDEX_STALE`. -/
def check_active_sources (get : String → Option String) :
    List SourceRecord → Except TransportError Unit
  | [] => .ok ()
  | source :: rest =>
    match source.checksum with
    | none =>
      .error (index_unavailable "INDEX_STALE"
        ("Source " ++ py_repr source.alias_ ++ " is active without a recorded checksum.")
        "Run ragadmin reindex to validate and snapshot active sources.")
    | some checksum =>
      if get source.alias_ ≠ some checksum then
        .error (index_unavailable "INDEX_STALE"
          ("Source " ++ py_repr source.alias_ ++ " has changed since the last index build.")
          "Run ragadmin reindex to rebuild the index with the latest sources.")
      else check_active_sources get rest

/-- `_ensure_index_current` (`router.py` lines 302-348).  Python sets are
modelled as `Finset String` via `List.toFinset`. -/
def ensure_index_current (catalog : SourceCatalog) : Except TransportError Unit :=
  if catalog.version ≤ 0 ∨ catalog.snapshots = [] then
    .error (index_unavailable "INDEX_MISSING"
      "No content index is available for the current catalog."
      "Run ragadmin reindex to build the knowledge index before continuing.")
  else
    let snapshot_aliases : Finset String := (catalog.snapshots.map (·.alias_)).toFinset
    if snapshot_aliases.card ≠ catalog.snapshots.length then
      .error (index_unavailable "INDEX_STALE"
        "Duplicate index snapshots detected for the catalog."
        "Run ragadmin reindex to rebuild the index with a clean snapshot set.")
    else
      let active_sources := catalog.sources.filter is_active_source
      let active_aliases : Finset String := (active_sources.map (·.alias_)).toFinset
      if snapshot_aliases ≠ active_aliases then
        .error (index_unavailable "INDEX_STALE"
          "Index snapshots do not align with active catalog sources."
          "Run ragadmin reindex to align the index with the current catalog.")
      else
        check_active_sources (snapshot_checksum_get catalog.snapshots) active_sources

/-- The error code of a guard outcome (`None` when the guard passes). -/
def error_code : Except TransportError Unit → Option String
  | .error e => some e.code
  | .ok _ => none

/-- The spec's INDEX_MISSING condition: `version <= 0` or no snapshots. -/
def index_missing_condition (catalog : SourceCatalog) : Prop :=
  catalog.version ≤ 0 ∨ catalog.snapshots = []

/-- The spec's INDEX_STALE condition: duplicate snapshot aliases, or snapshot
aliases differing from active-source aliases as sets, or some active source
without a checksum or with a checksum differing from its snapshot's. -/
def index_stale_condition (catalog : SourceCatalog) : Prop :=
  ¬ (catalog.snapshots.map (·.alias_)).Nodup
  ∨ (catalog.snapshots.map (·.alias_)).toFinset
      ≠ ((catalog.sources.filter is_active_source).map (·.alias_)).toFinset
  ∨ ∃ s ∈ catalog.sources.filter is_active_source,
      s.checksum = none ∨ snapshot_checksum_get catalog.snapshots s.alias_ ≠ s.checksum

/-! ## Reindex orchestrator
(`src/backend/src/application/reindex_service.py` lines 36-305)

The collaborators injected into `ReindexService.__init__` are modelled as
total functions: location resolution (`_resolve_location`), the checksum
calculator, `_stat_size` and the chunk builder (of which `run` observes only
`len(documents)`).  The claims settled against this model quantify over runs
that raise no exception, which is exactly the behaviour of the model; the
`except` branch of `run` (mark FAILED, re-raise) is outside every claim.
`self._clock()` is read several times during a run; no claim distinguishes
the instants, so a single `now` stands for all of them.  The audit logger and
the content-index version record are write-only side effects no claim
observes, and are omitted.
-/

/-- Environment of collaborator functions for a reindex run. -/
structure ReindexEnv where
  resolve_location : String → String
  checksum_calculator : String → String
  stat_size : String → Int
  chunk_count : String → String → String → SourceType → Nat

namespace ReindexService

/-- Mutable loop state of `ReindexService.run` (`reindex_service.py` lines
100-158): counters, accumulated source/snapshot lists, the job snapshots
handed to `callbacks.on_progress`, and the current `job` value. -/
structure LoopState where
  processed_sources : Nat
  documents_processed : Nat
  updated_sources : List SourceRecord
  new_snapshots : List SourceSnapshot
  progress : List IngestionJob
  job : IngestionJob

/-- One iteration of the `for record in catalog.sources` loop
(`reindex_service.py` lines 106-158).  Inactive sources pass through into
`updated_sources` unchanged; active sources are checksummed, optionally
ingested, refreshed and snapshotted, and progress is emitted. -/
def reindex_source_step (env : ReindexEnv) (total_sources : Nat) (now : Timestamp)
    (record : SourceRecord) (st : LoopState) : LoopState :=
  if record.status ≠ .active then
    { st with updated_sources := st.updated_sources ++ [record] }
  else
    let location_path := env.resolve_location record.location
    let checksum := env.checksum_calculator location_path
    let size_bytes := env.stat_size location_path
    let changed := checksum ≠ record.checksum.getD ""
    let docs := if changed then env.chunk_count record.alias_ checksum location_path record.type else 0
    let stage := if changed then "ingesting:" ++ record.alias_ else "skipping:" ++ record.alias_
    let documents_processed := st.documents_processed + docs
    let refreshed : SourceRecord :=
      { alias_ := record.alias_
        type := record.type
        location := location_path
        language := record.language
        size_bytes := size_bytes
        last_updated := now
        status := record.status
        checksum := some checksum
        notes := record.notes }
    let processed_sources := st.processed_sources + 1
    let percent : Rat :=
      if total_sources = 0 then 100
      else (processed_sources : Rat) / (total_sources : Rat) * 100
    let job := { st.job with
                  documents_processed := documents_processed
                  stage := some stage
                  percent_complete := some percent }
    { processed_sources := processed_sources
      documents_processed := documents_processed
      updated_sources := st.updated_sources ++ [refreshed]
      new_snapshots := st.new_snapshots ++ [{ alias_ := record.alias_, checksum := checksum }]
      progress := st.progress ++ [job]
      job := job }

/-- The `for record in catalog.sources` loop itself. -/
def reindex_loop (env : ReindexEnv) (total_sources : Nat) (now : Timestamp) :
    List SourceRecord → LoopState → LoopState
  | [], st => st
  | record :: rest, st =>
    reindex_loop env total_sources now rest (reindex_source_step env total_sources now record st)

/-- Everything a successful `ReindexService.run` produces that a caller or a
callback can observe: the returned job, the catalog passed to
`storage.save`, the `on_progress` emissions and the `on_complete` emission. -/
structure RunResult where
  final_job : IngestionJob
  new_catalog : SourceCatalog
  progress : List IngestionJob
  completion : IngestionJob

/-- `ReindexService.run` (`reindex_service.py` lines 62-199), success path:
create the RUNNING job at stage `"preparing_index"` / percent 0 and emit it,
walk the catalog sources, sort the updated source list by alias
(`updated_sources.sort(key=lambda record: record.alias)`, a stable ascending
sort, modelled by `List.insertionSort`), persist version+1, and finish
SUCCEEDED at stage `"completed"` / percent 100. -/
def run (env : ReindexEnv) (trigger : IngestionTrigger) (job_id : String)
    (catalog : SourceCatalog) (now : Timestamp) : RunResult :=
  let job : IngestionJob :=
    { job_id := job_id
      source_alias := "*"
      status := .running
      requested_at := now
      started_at := some now
      completed_at := none
      documents_processed := 0
      stage := some "preparing_index"
      percent_complete := some 0
      error_message := none
      trigger := trigger }
  let active_sources := catalog.sources.filter (fun record => record.status = .active)
  let total_sources := active_sources.length
  let st0 : LoopState :=
    { processed_sources := 0
      documents_processed := 0
      updated_sources := []
      new_snapshots := []
      progress := [job]
      job := job }
  let st := reindex_loop env total_sources now catalog.sources st0
  let sorted_sources :=
    st.updated_sources.insertionSort (fun a b => a.alias_ ≤ b.alias_)
  let new_catalog : SourceCatalog :=
    { version := catalog.version + 1
      updated_at := now
      sources := sorted_sources
      snapshots := st.new_snapshots }
  let final_job := { st.job with
                      status := .succeeded
                      completed_at := some now
                      stage := some "completed"
                      percent_complete := some 100 }
  { final_job := final_job
    new_catalog := new_catalog
    progress := st.progress
    completion := final_job }

end ReindexService

/-- Whether `run` treats a source as changed:
`checksum != (record.checksum or "")` (`reindex_service.py` line 117). -/
def reindex_changed (env : ReindexEnv) (record : SourceRecord) : Bool :=
  env.checksum_calculator (env.resolve_location record.location) ≠ record.checksum.getD ""

/-- The stage label `run` sets for an active source (`reindex_service.py`
lines 118-128). -/
def reindex_stage_label (env : ReindexEnv) (record : SourceRecord) : String :=
  if reindex_changed env record then "ingesting:" ++ record.alias_
  else "skipping:" ++ record.alias_

/-- The checksum `run` records for an active source. -/
def reindex_new_checksum (env : ReindexEnv) (record : SourceRecord) : String :=
  env.checksum_calculator (env.resolve_location record.location)

/-- Whether an optional stage label starts with the given tag. -/
def stage_option_has_tag (tag : String) : Option String → Bool
  | some s => tag.data.isPrefixOf s.data
  | none => false

/-- Whether a job snapshot's stage starts with the given tag (used to count
`"ingesting:"` / `"skipping:"` stage transitions). -/
def stage_has_tag (tag : String) (job : IngestionJob) : Bool :=
  stage_option_has_tag tag job.stage

/-! ## JSON values and the framing codec
(`src/backend/src/adapters/transport/server.py` lines 71-120)

`_write_frame` serializes with `json.dumps(message, separators=(",", ":"),
sort_keys=True).encode("utf-8")` and frames as `<decimal-length>\n<json>\n`;
`_read_frame` reads a length line, exactly that many bytes, a newline
sentinel, and `json.loads` the payload.  The embedding models:

* JSON numbers as integers (`str(int)` round-trips through the scanner; IEEE
  floats are outside the shallow embedding);
* the wire as a list of characters.  With `ensure_ascii=True` (the
  `json.dumps` default) every byte the encoder emits is ASCII, so characters
  and bytes coincide on everything `_write_frame` produces;
* the scanner exactly on the compact grammar the encoder emits: optional
  whitespace, `NaN`/`Infinity`, floats, lone surrogates and leading zeros —
  inputs `json.dumps` never produces — are rejected rather than parsed.
-/

/-- A JSON value (numbers restricted to integers, see above). -/
inductive Json where
  | null
  | bool (b : Bool)
  | int (n : Int)
  | str (s : String)
  | arr (elems : List Json)
  | obj (members : List (String × Json))
  deriving Repr

/-- Lowercase hex digit, as CPython's `"%04x"` formatting uses. -/
def to_hex_digit (n : Nat) : Char :=
  if n < 10 then Char.ofNat (48 + n) else Char.ofNat (87 + n)

/-- Four lowercase hex digits of `n < 0x10000`. -/
def hex4 (n : Nat) : List Char :=
  [to_hex_digit (n / 4096 % 16), to_hex_digit (n / 256 % 16),
   to_hex_digit (n / 16 % 16), to_hex_digit (n % 16)]

/-- CPython `py_encode_basestring_ascii` on one character: `"` and `\`
escaped; `\b \f \n \r \t` short escapes; every other character outside
`0x20..0x7e` as `\uXXXX`, with a surrogate pair (`0xd800 | (n >> 10)`,
`0xdc00 | (n & 0x3ff)` on `n = code - 0x10000`, written below with `/ 1024`
and `% 1024`, equal on this range) beyond `0xffff`. -/
def encode_char (c : Char) : List Char :=
  if c = '"' then ['\\', '"']
  else if c = '\\' then ['\\', '\\']
  else if c = '\x08' then ['\\', 'b']
  else if c = '\x0c' then ['\\', 'f']
  else if c = '\n' then ['\\', 'n']
  else if c = '\r' then ['\\', 'r']
  else if c = '\t' then ['\\', 't']
  else if c.toNat < 0x20 ∨ 0x7f ≤ c.toNat then
    if c.toNat < 0x10000 then '\\' :: 'u' :: hex4 c.toNat
    else
      '\\' :: 'u' :: hex4 (0xd800 + (c.toNat - 0x10000) / 1024)
        ++ '\\' :: 'u' :: hex4 (0xdc00 + (c.toNat - 0x10000) % 1024)
  else [c]

/-- Escape a whole string body, character by character. -/
def encode_string_body : List Char → List Char
  | [] => []
  | c :: rest => encode_char c ++ encode_string_body rest

/-- Decimal digits of a natural number (`str(n)` for `n >= 0`). -/
def nat_digits (n : Nat) : List Char :=
  if h : n < 10 then [Char.ofNat (48 + n)]
  else nat_digits (n / 10) ++ [Char.ofNat (48 + n % 10)]
decreasing_by exact Nat.div_lt_self (by omega) (by omega)

/-- `str(n)` for a Python int. -/
def int_chars : Int → List Char
  | .ofNat m => nat_digits m
  | .negSucc m => '-' :: nat_digits (m + 1)

/-- `sort_keys=True`: members sorted by key (Python's stable `sorted` on the
key, modelled by a stable insertion sort; the comparator reads only keys). -/
def sort_encoded (l : List (String × List Char)) : List (String × List Char) :=
  l.insertionSort (fun a b => a.1 ≤ b.1)

/-- Render one already-encoded member as `"key":value`. -/
def render_member (kv : String × List Char) : List Char :=
  '"' :: encode_string_body kv.1.data ++ '"' :: ':' :: kv.2

/-- Join rendered members with `,` (compact separators). -/
def join_members : List (String × List Char) → List Char
  | [] => []
  | [kv] => render_member kv
  | kv :: rest => render_member kv ++ ',' :: join_members rest

mutual

/-- `json.dumps(value, separators=(",", ":"), sort_keys=True)` over the
embedded value type.  For objects, CPython sorts the items and then encodes
each; encoding each value first and then sorting the rendered members by key
is the same list of members (the sort is stable and compares only keys). -/
def encode_json : Json → List Char
  | .null => ['n', 'u', 'l', 'l']
  | .bool b => if b then ['t', 'r', 'u', 'e'] else ['f', 'a', 'l', 's', 'e']
  | .int n => int_chars n
  | .str s => '"' :: encode_string_body s.data ++ ['"']
  | .arr [] => ['[', ']']
  | .arr (v :: rest) => '[' :: (encode_json v ++ encode_elems rest) ++ [']']
  | .obj kvs => '{' :: join_members (sort_encoded (encode_members kvs)) ++ ['}']

/-- The `,`-separated tail of an array encoding. -/
def encode_elems : List Json → List Char
  | [] => []
  | v :: rest => ',' :: (encode_json v ++ encode_elems rest)

/-- Encode each member's value, keeping the key alongside. -/
def encode_members : List (String × Json) → List (String × List Char)
  | [] => []
  | (k, v) :: rest => (k, encode_json v) :: encode_members rest

end

/-- Hex digit value accepted by the scanner (`int(s, 16)` on one digit,
either case). -/
def hex_val? (c : Char) : Option Nat :=
  if 48 ≤ c.toNat ∧ c.toNat ≤ 57 then some (c.toNat - 48)
  else if 97 ≤ c.toNat ∧ c.toNat ≤ 102 then some (c.toNat - 87)
  else if 65 ≤ c.toNat ∧ c.toNat ≤ 70 then some (c.toNat - 55)
  else none

/-! CPython `py_scanstring`: walk the body until the closing quote,
processing backslash escapes, `\uXXXX` code points and surrogate pairs, and
rejecting raw control characters (strict mode).  A lone surrogate — which
CPython would keep as an unpaired surrogate character, a value a Lean `Char`
cannot hold and `json.dumps` never emits — is rejected.  The scanner is split
into one function per syntactic position (body, after a backslash, after
`\u`, at the low half of a surrogate pair). -/
mutual

/-- Scan the string body. -/
def parse_string_body : List Char → List Char → Option (String × List Char)
  | [], _ => none
  | c :: rest, acc =>
    if c = '"' then some (String.mk acc.reverse, rest)
    else if c = '\\' then parse_escape rest acc
    else if c.toNat < 0x20 then none
    else parse_string_body rest (c :: acc)

/-- Scan the character after a backslash. -/
def parse_escape : List Char → List Char → Option (String × List Char)
  | [], _ => none
  | e :: rest2, acc =>
    if e = '"' then parse_string_body rest2 ('"' :: acc)
    else if e = '\\' then parse_string_body rest2 ('\\' :: acc)
    else if e = '/' then parse_string_body rest2 ('/' :: acc)
    else if e = 'b' then parse_string_body rest2 ('\x08' :: acc)
    else if e = 'f' then parse_string_body rest2 ('\x0c' :: acc)
    else if e = 'n' then parse_string_body rest2 ('\n' :: acc)
    else if e = 'r' then parse_string_body rest2 ('\r' :: acc)
    else if e = 't' then parse_string_body rest2 ('\t' :: acc)
    else if e = 'u' then parse_u rest2 acc
    else none

/-- Scan the four hex digits after `\u`. -/
def parse_u : List Char → List Char → Option (String × List Char)
  | h1 :: h2 :: h3 :: h4 :: rest3, acc =>
    match hex_val? h1, hex_val? h2, hex_val? h3, hex_val? h4 with
    | some v1, some v2, some v3, some v4 =>
      let v := ((v1 * 16 + v2) * 16 + v3) * 16 + v4
      if 0xd800 ≤ v ∧ v ≤ 0xdbff then parse_surrogate_low v rest3 acc
      else if 0xdc00 ≤ v ∧ v ≤ 0xdfff then none
      else parse_string_body rest3 (Char.ofNat v :: acc)
    | _, _, _, _ => none
  | _, _ => none

/-- Scan the `\uXXXX` low half of a surrogate pair and combine. -/
def parse_surrogate_low (v : Nat) : List Char → List Char → Option (String × List Char)
  | '\\' :: 'u' :: g1 :: g2 :: g3 :: g4 :: rest4, acc =>
    match hex_val? g1, hex_val? g2, hex_val? g3, hex_val? g4 with
    | some w1, some w2, some w3, some w4 =>
      let w := ((w1 * 16 + w2) * 16 + w3) * 16 + w4
      if 0xdc00 ≤ w ∧ w ≤ 0xdfff then
        parse_string_body rest4
          (Char.ofNat (0x10000 + (v - 0xd800) * 1024 + (w - 0xdc00)) :: acc)
      else none
    | _, _, _, _ => none
  | _, _ => none

end

/-- Maximal run of decimal digits, accumulating the value. -/
def parse_nat_digits : List Char → Nat → Nat × List Char
  | c :: rest, acc =>
    if c.isDigit then parse_nat_digits rest (acc * 10 + (c.toNat - 48))
    else (acc, c :: rest)
  | [], acc => (acc, [])

/-- The scanner's number production restricted to integers (the only numbers
the encoder above emits): an optional minus sign and a digit run. -/
def parse_number : List Char → Option (Json × List Char)
  | [] => none
  | c :: rest =>
    if c = '-' then
      match rest with
      | c2 :: _ =>
        if c2.isDigit then
          let p := parse_nat_digits rest 0
          some (.int (-(p.1 : Int)), p.2)
        else none
      | [] => none
    else if c.isDigit then
      let p := parse_nat_digits (c :: rest) 0
      some (.int (p.1 : Int), p.2)
    else none

mutual

/-- The scanner's value dispatch on the first character (fuelled: the fuel
bounds the recursion depth; `read_frame` below supplies more fuel than any
payload of the given length can need). -/
def parse_value : Nat → List Char → Option (Json × List Char)
  | 0, _ => none
  | _ + 1, [] => none
  | fuel + 1, c :: rest =>
    if c = 'n' then
      match rest with
      | 'u' :: 'l' :: 'l' :: rest2 => some (.null, rest2)
      | _ => none
    else if c = 't' then
      match rest with
      | 'r' :: 'u' :: 'e' :: rest2 => some (.bool true, rest2)
      | _ => none
    else if c = 'f' then
      match rest with
      | 'a' :: 'l' :: 's' :: 'e' :: rest2 => some (.bool false, rest2)
      | _ => none
    else if c = '"' then
      match parse_string_body rest [] with
      | some (s, rest2) => some (.str s, rest2)
      | none => none
    else if c = '[' then
      match rest with
      | ']' :: rest2 => some (.arr [], rest2)
      | _ =>
        match parse_elements fuel rest with
        | some (vs, rest2) => some (.arr vs, rest2)
        | none => none
    else if c = '{' then
      match rest with
      | '}' :: rest2 => some (.obj [], rest2)
      | _ =>
        match parse_members fuel rest with
        | some (kvs, rest2) => some (.obj kvs, rest2)
        | none => none
    else parse_number (c :: rest)

/-- One or more `,`-separated array elements followed by `]`. -/
def parse_elements : Nat → List Char → Option (List Json × List Char)
  | 0, _ => none
  | fuel + 1, s =>
    match parse_value fuel s with
    | some (v, ',' :: rest) =>
      match parse_elements fuel rest with
      | some (vs, rest2) => some (v :: vs, rest2)
      | none => none
    | some (v, ']' :: rest) => some ([v], rest)
    | _ => none

/-- One or more `"key":value` members followed by `}`. -/
def parse_members : Nat → List Char → Option (List (String × Json) × List Char)
  | 0, _ => none
  | fuel + 1, s =>
    match s with
    | '"' :: rest =>
      match parse_string_body rest [] with
      | some (k, ':' :: rest2) =>
        match parse_value fuel rest2 with
        | some (v, ',' :: rest3) =>
          match parse_members fuel rest3 with
          | some (kvs, rest4) => some ((k, v) :: kvs, rest4)
          | none => none
        | some (v, '}' :: rest3) => some ([(k, v)], rest3)
        | _ => none
      | _ => none
    | _ => none

end

/-- `_write_frame` (`server.py` lines 106-120): decimal byte length, newline,
compact sorted-keys JSON, newline. -/
def write_frame (message : Json) : List Char :=
  nat_digits (encode_json message).length ++ '\n' :: (encode_json message ++ ['\n'])

/-- `reader.readline()`: the stream up to and including the first newline
(everything, at end of stream). -/
def read_line : List Char → List Char × List Char
  | [] => ([], [])
  | c :: rest =>
    if c = '\n' then ([c], rest)
    else
      let p := read_line rest
      (c :: p.1, p.2)

/-- Python `str.strip()` whitespace (the characters a length line can
carry). -/
def is_py_space (c : Char) : Bool :=
  c = ' ' ∨ c = '\t' ∨ c = '\n' ∨ c = '\r' ∨ c = '\x0b' ∨ c = '\x0c'

/-- `int(line.decode("ascii").strip())` restricted to the nonnegative decimal
numerals `_write_frame` emits (other `int()` spellings — signs, underscores —
never reach a compliant decode and are rejected). -/
def parse_length? (line : List Char) : Option Nat :=
  let t := ((line.dropWhile is_py_space).reverse.dropWhile is_py_space).reverse
  if t ≠ [] ∧ t.all (·.isDigit) then some (parse_nat_digits t 0).1 else none

/-- `_read_frame` (`server.py` lines 71-103) on a character stream: length
line, exactly that many payload characters, the newline sentinel, then
`json.loads` of the payload (which must consume it entirely).  `none` covers
every raising path (connection closed, bad length prefix, short read, missing
sentinel, invalid JSON). -/
def read_frame (stream : List Char) : Option (Json × List Char) :=
  match read_line stream with
  | ([], _) => none
  | (line, rest) =>
    match parse_length? line with
    | none => none
    | some n =>
      if n + 1 ≤ rest.length then
        let payload := rest.take n
        if (rest.drop n).head? = some '\n' then
          match parse_value (n + 1) payload with
          | some (j, []) => some (j, rest.drop (n + 1))
          | _ => none
        else none
      else none

/-- Canonical form for the mapping a Python dict denotes: object keys
strictly sorted (hence duplicate-free) at every level.  A dict is an
unordered unique-key mapping; its sorted association list is the canonical
representative, and it is what `json.dumps(…, sort_keys=True)` serializes.
First, a strictly increasing key list: -/
def json_canonical_keys : List String → Bool
  | [] => true
  | [_] => true
  | k1 :: k2 :: rest => decide (k1 < k2) && json_canonical_keys (k2 :: rest)

mutual

/-- Canonical JSON value: object keys strictly sorted at every level. -/
def json_canonical : Json → Bool
  | .null => true
  | .bool _ => true
  | .int _ => true
  | .str _ => true
  | .arr elems => json_canonical_list elems
  | .obj members =>
    json_canonical_keys (members.map (·.1)) && json_canonical_members members

/-- All values in a list canonical. -/
def json_canonical_list : List Json → Bool
  | [] => true
  | v :: rest => json_canonical v && json_canonical_list rest

/-- All member values canonical. -/
def json_canonical_members : List (String × Json) → Bool
  | [] => true
  | (_, v) :: rest => json_canonical v && json_canonical_members rest

end

/-! ## Transport server model
(`src/backend/src/adapters/transport/server.py` lines 123-323 and the router
`src/backend/src/adapters/transport/handlers/router.py` lines 36-217)

Incoming traffic is modelled as the sequence of `_read_frame` outcomes the
reader produces: a decoded mapping, a framing-level protocol error, or a
clean close.  (Per §3 of the spec a frame is a mapping envelope; a payload
that decodes to a non-mapping JSON value would raise `AttributeError` on
`.get` in Python and is outside the model and every claim.)  Outgoing
traffic is the sequence of messages handed to `_write_frame`.

The query, list-sources, admin-init and admin-health operations call domain
ports; the claims exercise only the reindex path, so those four are
abstracted as outcome-valued parameters of the environment, as are
`ingestion_port.start_reindex` and `serialize_ingestion_job`.
-/

/-- Python dict lookup on a decoded JSON object (`frame.get(key)`); for
duplicate keys `json.loads` keeps the later entry, hence the reversed
search. -/
def json_get (members : List (String × Json)) (key : String) : Option Json :=
  (members.reverse.find? (fun kv => kv.1 = key)).map (·.2)

/-- Python truthiness of a decoded JSON value (`frame.get("body") or ...`). -/
def json_truthy : Json → Bool
  | .null => false
  | .bool b => b
  | .int n => n ≠ 0
  | .str s => s ≠ ""
  | .arr elems => !elems.isEmpty
  | .obj members => !members.isEmpty

/-- CPython `repr` of the scalar values interpolated into error messages via
`!r`.  List and dict reprs print their elements; no claim reaches them, so
they are abbreviated. -/
def py_repr_json : Option Json → String
  | none => "None"
  | some .null => "None"
  | some (.bool true) => "True"
  | some (.bool false) => "False"
  | some (.int n) => String.mk (int_chars n)
  | some (.str s) => py_repr s
  | some (.arr _) => "[...]"
  | some (.obj _) => "(...)"

/-- Python `x != s` for a decoded JSON value against a `str` constant: only
an equal string is equal. -/
def py_ne_str (v : Option Json) (s : String) : Bool :=
  match v with
  | some (.str t) => t ≠ s
  | _ => true

/-- Python `x != n` for a decoded JSON value against an `int` constant:
`bool` is an `int` subclass, so `True == 1` and `False == 0`. -/
def py_ne_int (v : Option Json) (n : Int) : Bool :=
  match v with
  | some (.int m) => m ≠ n
  | some (.bool b) => (if b then (1 : Int) else 0) ≠ n
  | _ => true

/-- One `_read_frame` outcome as seen by `_handle_connection`. -/
inductive ReadEvent where
  | closed
  | proto_error (msg : String)
  | frame (members : List (String × Json))

/-- The `HANDSHAKE_RESPONSE` acknowledgement dict (`server.py` lines 26-31),
in insertion order. -/
def handshake_ack : Json :=
  .obj [("type", .str "handshake_ack"), ("protocol", .str "rag-cli-ipc"),
        ("version", .int 1), ("server", .str "rag-backend")]

/-- `_normalize_correlation_id` (`server.py` lines 42-47): keep a non-empty
string, otherwise the fallback. -/
def normalize_correlation_id (candidate : Option Json) (fallback : String) : String :=
  match candidate with
  | some (.str s) => if s ≠ "" then s else fallback
  | _ => fallback

/-- `_handshake_response` (`server.py` lines 123-151): first frame must have
type `"handshake"`, protocol `"rag-cli-ipc"` and version `1` (Python `!=` on
ints, under which `True == 1`); on success the fixed acknowledgement dict. -/
def handshake_response (request : List (String × Json)) : Except String Json :=
  if py_ne_str (json_get request "type") "handshake" then
    .error "First frame must be a handshake request"
  else if py_ne_str (json_get request "protocol") "rag-cli-ipc" then
    .error ("Unsupported protocol: " ++ py_repr_json (json_get request "protocol"))
  else if py_ne_int (json_get request "version") 1 then
    .error ("Unsupported protocol version: " ++ py_repr_json (json_get request "version"))
  else .ok handshake_ack

/-- Build the `(type: response, status, correlation_id, body)` dict
(insertion order) passed to `_write_frame`. -/
def mk_response (status : Int) (correlation_id : String) (body : Json) : Json :=
  .obj [("type", .str "response"), ("status", .int status),
        ("correlation_id", .str correlation_id), ("body", body)]

/-- `TransportError.to_payload` (`errors.py` lines 25-34): code, message,
and remediation only when truthy. -/
def to_payload (e : TransportError) : Json :=
  match e.remediation with
  | some r =>
    if r ≠ "" then
      .obj [("code", .str e.code), ("message", .str e.message), ("remediation", .str r)]
    else .obj [("code", .str e.code), ("message", .str e.message)]
  | none => .obj [("code", .str e.code), ("message", .str e.message)]

/-- `_send_error` (`server.py` lines 371-407). -/
def send_error (status : Int) (correlation_id : String) (code message : String) : Json :=
  mk_response status correlation_id (.obj [("code", .str code), ("message", .str message)])

/-- What `TransportHandlers.dispatch` does with a frame, as observed by the
serving loop: return a `(status, payload)` tuple, return a
`StreamingResponse` dataclass, raise a `TransportError` (or its
`IndexUnavailableError` subtype), or raise anything else. -/
inductive DispatchOutcome where
  | ok (status : Int) (payload : Json)
  | streaming (initial_status : Int) (initial_body : Json)
  | transport_error (e : TransportError)
  | failure (msg : String)

/-- Collaborators of the router that the claims do not open up. -/
structure RouterEnv where
  query : Json → DispatchOutcome
  list_sources : DispatchOutcome
  admin_init : DispatchOutcome
  admin_health : Json → DispatchOutcome
  start_reindex_job : IngestionTrigger → Bool → IngestionJob
  serialize_job : IngestionJob → Json

/-- `IngestionTrigger(trigger_value)`: the three enum values parse, anything
else raises `ValueError`. -/
def parse_trigger : Json → Option IngestionTrigger
  | .str s =>
    if s = "init" then some .init
    else if s = "manual" then some .manual
    else if s = "scheduled" then some .scheduled
    else none
  | _ => none

/-- `TransportHandlers._handle_reindex` (`router.py` lines 185-217):
validate the trigger, read the `force` flag (any non-bool counts as false),
start the reindex with the job-stream callbacks, and return a
`StreamingResponse` with an initial 202 accepted payload.  (A non-mapping
`body` would raise `AttributeError` on `.get` in Python; the serving loop
substitutes `(empty dict)` for every falsy body, and no claim sends a truthy
non-mapping body, so the model reads missing keys as absent.) -/
def handle_reindex (env : RouterEnv) (body : Json) : DispatchOutcome :=
  let trigger_value :=
    match body with
    | .obj members => (json_get members "trigger").getD (.str "manual")
    | _ => .str "manual"
  match parse_trigger trigger_value with
  | none =>
    .transport_error
      { status := 400, code := "INVALID_TRIGGER",
        message := "Unsupported reindex trigger " ++ py_repr_json (some trigger_value) }
  | some trigger =>
    let force_value :=
      match body with
      | .obj members => json_get members "force"
      | _ => none
    let force_rebuild :=
      match force_value with
      | some (.bool b) => b
      | _ => false
    let job := env.start_reindex_job trigger force_rebuild
    .streaming 202 (.obj [("job", env.serialize_job job)])

/-- `TransportHandlers.dispatch` (`router.py` lines 70-101): the fixed path
table, unknown paths raising a 404 `TransportError`. -/
def dispatch (env : RouterEnv) (path : String) (body : Json) : DispatchOutcome :=
  if path = "/v1/query" then env.query body
  else if path = "/v1/sources" then env.list_sources
  else if path = "/v1/index/reindex" then handle_reindex env body
  else if path = "/v1/admin/init" then env.admin_init
  else if path = "/v1/admin/health" then env.admin_health body
  else
    .transport_error
      { status := 404, code := "NOT_FOUND", message := "Unknown path " ++ py_repr path }

/-- The SERVING loop of `_handle_connection` (`server.py` lines 218-316),
fed the reader outcomes in order.  Returns the messages written and the
`(path, body)` pairs actually dispatched.  The crucial line is
`status, payload = handlers.dispatch(path=path, body=body)` (line 269): a
`StreamingResponse` dataclass is not iterable, so unpacking it raises
`TypeError`, which lands in the generic `except Exception` arm (lines
294-305) and produces a 500 `INTERNAL_ERROR` response — the stream is never
drained and no accepted frame is written. -/
def serving_loop (env : RouterEnv) (conn_cid : String) :
    List ReadEvent → List Json × List (String × Json)
  | [] => ([], [])
  | .closed :: _ => ([], [])
  | .proto_error msg :: rest =>
    let p := serving_loop env conn_cid rest
    (send_error 400 conn_cid "INVALID_FRAME" msg :: p.1, p.2)
  | .frame members :: rest =>
    if py_ne_str (json_get members "type") "request" then
      let p := serving_loop env conn_cid rest
      (send_error 400 (normalize_correlation_id (json_get members "correlation_id") conn_cid)
        "INVALID_FRAME_TYPE"
        ("Expected frame type \x27request\x27, got "
          ++ py_repr_json (json_get members "type")) :: p.1, p.2)
    else
      match json_get members "path" with
      | some (.str path) =>
        if path = "" then
          let p := serving_loop env conn_cid rest
          (send_error 400
            (normalize_correlation_id (json_get members "correlation_id") conn_cid)
            "INVALID_PATH" "Request path must be a non-empty string" :: p.1, p.2)
        else
          let correlation :=
            normalize_correlation_id (json_get members "correlation_id") conn_cid
          let body :=
            match json_get members "body" with
            | some v => if json_truthy v then v else .obj []
            | none => .obj []
          let p := serving_loop env conn_cid rest
          match dispatch env path body with
          | .ok status payload =>
            (mk_response status correlation payload :: p.1, (path, body) :: p.2)
          | .transport_error e =>
            (mk_response e.status correlation (to_payload e) :: p.1, (path, body) :: p.2)
          | .failure _ =>
            (send_error 500 correlation "INTERNAL_ERROR" "Internal server error" :: p.1,
              (path, body) :: p.2)
          | .streaming _ _ =>
            (send_error 500 correlation "INTERNAL_ERROR" "Internal server error" :: p.1,
              (path, body) :: p.2)
      | _ =>
        let p := serving_loop env conn_cid rest
        (send_error 400
          (normalize_correlation_id (json_get members "correlation_id") conn_cid)
          "INVALID_PATH" "Request path must be a non-empty string" :: p.1, p.2)

/-- `_handle_connection` (`server.py` lines 154-323): the handshake phase —
a close before the handshake returns silently; a framing error or a frame
failing `_handshake_response` sends a 400 `HANDSHAKE_ERROR` and terminates
the connection; a valid handshake sends the acknowledgement and enters the
serving loop. -/
def handle_connection (env : RouterEnv) (conn_cid : String) :
    List ReadEvent → List Json × List (String × Json)
  | [] => ([], [])
  | .closed :: _ => ([], [])
  | .proto_error msg :: _ =>
    ([send_error 400 conn_cid "HANDSHAKE_ERROR" msg], [])
  | .frame members :: rest =>
    match handshake_response members with
    | .error msg =>
      ([send_error 400 (normalize_correlation_id (json_get members "correlation_id") conn_cid)
          "HANDSHAKE_ERROR" msg], [])
    | .ok ack =>
      let p := serving_loop env conn_cid rest
      (ack :: p.1, p.2)

/-! Fuel accounting for the scanner: `json_size` bounds the recursion depth
`parse_value` needs, and is in turn bounded by the encoding's length, so the
`length + 1` fuel `read_frame` supplies always suffices. -/

mutual

/-- Recursion-depth measure of a JSON value. -/
def json_size : Json → Nat
  | .null => 1
  | .bool _ => 1
  | .int _ => 1
  | .str _ => 1
  | .arr elems => 1 + elems_size elems
  | .obj members => 1 + members_size members

/-- Measure of an element list. -/
def elems_size : List Json → Nat
  | [] => 0
  | v :: rest => 1 + json_size v + elems_size rest

/-- Measure of a member list. -/
def members_size : List (String × Json) → Nat
  | [] => 0
  | (_, v) :: rest => 1 + json_size v + members_size rest

end

/-! ## Theorems -/

/-- Helper: the `ordered_processed` loop computes `List.filter`. -/
theorem ordered_processed_eq_filter (processed : List String) (ids : List String) :
    JobRecoveryService.ordered_processed processed ids
      = ids.filter (fun identifier => identifier ∈ processed) := by
  induction ids with
  | nil => rfl
  | cons head tail ih =>
    by_cases h : head ∈ processed <;>
      simp [JobRecoveryService.ordered_processed, h, ih]

/-- C6: with a RUNNING job, `record_progress` returns the checkpoint whose
ids are the processed ids filtered through `document_ids` in order, with
percent `count / total * 100` (0 for an empty workload); with any other job
status it raises. -/
theorem c6_record_progress (job : IngestionJob) (processed document_ids : List String)
    (now : Timestamp) :
    (job.status = .running →
      JobRecoveryService.record_progress job processed document_ids now =
        .ok { processed_document_ids := document_ids.filter (fun d => d ∈ processed)
              percent_complete :=
                if document_ids = [] then 0
                else ((document_ids.filter (fun d => d ∈ processed)).length : Rat)
                      / (document_ids.length : Rat) * 100
              captured_at := now })
    ∧ (job.status ≠ .running →
      JobRecoveryService.record_progress job processed document_ids now =
        .error "only running jobs can be checkpointed") := by
  constructor
  · intro h
    by_cases he : document_ids = [] <;>
      simp [JobRecoveryService.record_progress, h, he, ordered_processed_eq_filter]
  · intro h
    simp [JobRecoveryService.record_progress, h]

/-- C6 witness at the spec's own example: processed (A, C), ordered
(A, B, C, D) gives ids (A, C) and percent 50. -/
theorem c6_record_progress_witness :
    ({ job_id := "j1", source_alias := "man-pages", status := .running,
       requested_at := 0 : IngestionJob }.status = IngestionStatus.running)
    ∧ JobRecoveryService.record_progress
        { job_id := "j1", source_alias := "man-pages", status := .running, requested_at := 0 }
        ["A", "C"] ["A", "B", "C", "D"] 7 =
        .ok { processed_document_ids := ["A", "C"], percent_complete := 50, captured_at := 7 } := by
  refine ⟨rfl, ?_⟩
  rw [(c6_record_progress _ ["A", "C"] ["A", "B", "C", "D"] 7).1 rfl]
  simp +decide [List.filter]
  norm_num

/-- C7 counterexample: for a job that already has `started_at = some 5`,
`resume` with no checkpoint at recovery instant 7 keeps the original
`started_at` (the source computes `job.started_at or plan.recovery_started_at`),
so the returned `started_at` is not the fresh recovery timestamp. -/
theorem c7_counterexample :
    (JobRecoveryService.resume
        { job_id := "j1", source_alias := "man-pages", status := .failed,
          requested_at := 0, started_at := some 5 }
        ["A"] none 7).map (fun r => r.1.started_at) = .ok (some 5)
    ∧ (JobRecoveryService.resume
        { job_id := "j1", source_alias := "man-pages", status := .failed,
          requested_at := 0, started_at := some 5 }
        ["A"] none 7).map (fun r => r.1.started_at) ≠ .ok (some 7) := by
  constructor <;> decide

/-- C7 (amended): `resume` with no checkpoint and a nonempty workload restarts
fully — the plan keeps all ids in order and percent 0, the job runs at percent
0 — and `started_at` is the job's original `started_at` when that was set,
the fresh recovery timestamp only otherwise. -/
theorem c7_resume_no_checkpoint (job : IngestionJob) (document_ids : List String)
    (now : Timestamp) (h : document_ids ≠ []) :
    ∃ updated plan,
      JobRecoveryService.resume job document_ids none now = .ok (updated, plan)
      ∧ plan.remaining_document_ids = document_ids
      ∧ plan.percent_complete = 0
      ∧ plan.recovery_started_at = now
      ∧ updated.percent_complete = some 0
      ∧ updated.status = .running
      ∧ updated.started_at = some (job.started_at.getD now) := by
  cases hs : job.started_at <;>
    simp [JobRecoveryService.resume, h, hs] <;>
    exact ⟨_, _, ⟨rfl, rfl⟩, rfl, rfl, rfl, rfl, rfl, rfl⟩

/-- C7 witness: a job with no prior `started_at` resumed at instant 3 restarts
at percent 0 with all ids remaining. -/
theorem c7_resume_no_checkpoint_witness :
    ((["A"] : List String) ≠ [])
    ∧ ∃ updated plan,
        JobRecoveryService.resume
          { job_id := "j2", source_alias := "man-pages", status := .failed, requested_at := 0 }
          ["A"] none 3 = .ok (updated, plan)
        ∧ plan.remaining_document_ids = ["A"]
        ∧ plan.percent_complete = 0
        ∧ plan.recovery_started_at = 3
        ∧ updated.percent_complete = some 0
        ∧ updated.status = .running
        ∧ updated.started_at = some (Option.getD
            ({ job_id := "j2", source_alias := "man-pages", status := .failed,
               requested_at := 0 : IngestionJob }).started_at 3) :=
  ⟨by decide,
   c7_resume_no_checkpoint
     { job_id := "j2", source_alias := "man-pages", status := .failed, requested_at := 0 }
     ["A"] 3 (by decide)⟩

/-- C8 counterexample: a QUEUED job with a checkpoint that covers the whole
workload makes `resume` raise (`plan_resume` accepts only RUNNING or FAILED
jobs) instead of returning a SUCCEEDED job, so the claim's unguarded
"always returns SUCCEEDED" fails. -/
theorem c8_counterexample :
    JobRecoveryService.resume
      { job_id := "j3", source_alias := "man-pages", status := .queued, requested_at := 0 }
      ["A"]
      (some { processed_document_ids := ["A"], percent_complete := 100, captured_at := 1 })
      7 = .error "only running or failed jobs can be resumed" := by
  decide

/-- C8 (amended): for a nonempty workload, a RUNNING or FAILED job, and a
checkpoint under which no ordered id remains unprocessed, `resume` promotes
directly to SUCCEEDED with `documents_processed = document_ids.length`,
stage "completed" and percent 100 (inputs are unchanged: the embedding is
pure, mirroring the frozen dataclasses and `dataclasses.replace`). -/
theorem c8_resume_nothing_remaining (job : IngestionJob) (cp : Checkpoint)
    (document_ids : List String) (now : Timestamp)
    (h1 : document_ids ≠ [])
    (h2 : job.status = .running ∨ job.status = .failed)
    (h3 : ∀ d ∈ document_ids, d ∈ cp.processed_document_ids) :
    (JobRecoveryService.resume job document_ids (some cp) now).map Prod.fst =
      .ok { job with
              status := .succeeded
              completed_at := some now
              documents_processed := document_ids.length
              stage := some "completed"
              percent_complete := some 100
              error_message := none } := by
  have hstatus : ¬(job.status ≠ .running ∧ job.status ≠ .failed) := by
    rcases h2 with h | h <;> simp [h]
  have hrem : document_ids.filter
      (fun identifier => identifier ∉ cp.processed_document_ids) = [] := by
    simp only [List.filter_eq_nil_iff]
    intro a ha
    simpa using h3 a ha
  simp [JobRecoveryService.resume, JobRecoveryService.plan_resume, h1, hstatus, hrem]
  rw [if_pos h3]
  rfl

/-- C8 witness: a RUNNING job whose single document is already checkpointed
resumes straight to SUCCEEDED. -/
theorem c8_resume_nothing_remaining_witness :
    ((["doc-1"] : List String) ≠ [])
    ∧ (({ job_id := "j4", source_alias := "man-pages", status := .running,
          requested_at := 0 : IngestionJob }).status = IngestionStatus.running
        ∨ ({ job_id := "j4", source_alias := "man-pages", status := .running,
             requested_at := 0 : IngestionJob }).status = IngestionStatus.failed)
    ∧ (∀ d ∈ (["doc-1"] : List String),
        d ∈ ({ processed_document_ids := ["doc-1"], percent_complete := 100,
               captured_at := 1 : Checkpoint }).processed_document_ids)
    ∧ (JobRecoveryService.resume
          { job_id := "j4", source_alias := "man-pages", status := .running, requested_at := 0 }
          ["doc-1"]
          (some { processed_document_ids := ["doc-1"], percent_complete := 100, captured_at := 1 })
          9).map Prod.fst =
          .ok ({ job_id := "j4", source_alias := "man-pages", status := .running,
                 requested_at := 0 : IngestionJob } |>
                (fun job => { job with
                  status := .succeeded
                  completed_at := some 9
                  documents_processed := (["doc-1"] : List String).length
                  stage := some "completed"
                  percent_complete := some 100
                  error_message := none })) :=
  ⟨by decide, by left; rfl, by decide,
   c8_resume_nothing_remaining
     { job_id := "j4", source_alias := "man-pages", status := .running, requested_at := 0 }
     { processed_document_ids := ["doc-1"], percent_complete := 100, captured_at := 1 }
     ["doc-1"] 9 (by decide) (by left; rfl) (by decide)⟩

/-- C10: `resume` rejects an empty workload outright, for every job and every
checkpoint (present or not): no plan is computed and no job is returned. -/
theorem c10_resume_empty_document_ids (job : IngestionJob) (checkpoint : Option Checkpoint)
    (now : Timestamp) :
    JobRecoveryService.resume job [] checkpoint now =
      .error "document_ids must contain at least one entry" := by
  rfl

/-- Helper: a Python set of a list has the list's size iff the list has no
duplicates (`len(set(xs)) == len(xs)`). -/
theorem toFinset_card_eq_length_iff (l : List String) :
    l.toFinset.card = l.length ↔ l.Nodup := by
  rw [List.card_toFinset]
  constructor
  · intro h
    rw [← List.dedup_eq_self]
    exact l.dedup_sublist.eq_of_length h
  · intro h
    rw [List.dedup_eq_self.2 h]

/-- Helper: the guard's per-source loop passes iff every source in the list
has a checksum matching its snapshot lookup. -/
theorem check_active_sources_ok_iff (get : String → Option String) (l : List SourceRecord) :
    check_active_sources get l = .ok ()
      ↔ ∀ s ∈ l, ¬(s.checksum = none ∨ get s.alias_ ≠ s.checksum) := by
  induction l with
  | nil => simp [check_active_sources]
  | cons s rest ih =>
    cases hc : s.checksum with
    | none => simp [check_active_sources, hc]
    | some c =>
      by_cases hg : get s.alias_ ≠ some c
      · simp [check_active_sources, hc, hg]
      · simp only [ne_eq, not_not] at hg
        simp [check_active_sources, hc, hg, ih]

/-- Helper: the guard's per-source loop either passes or raises INDEX_STALE. -/
theorem check_active_sources_code (get : String → Option String) (l : List SourceRecord) :
    check_active_sources get l = .ok ()
      ∨ error_code (check_active_sources get l) = some "INDEX_STALE" := by
  induction l with
  | nil => exact .inl rfl
  | cons s rest ih =>
    cases hc : s.checksum with
    | none => right; simp [check_active_sources, hc, error_code, index_unavailable]
    | some c =>
      by_cases hg : get s.alias_ ≠ some c
      · right; simp [check_active_sources, hc, hg, error_code, index_unavailable]
      · simpa [check_active_sources, hc, hg] using ih

/-- C3: the Index Consistency Guard fails with INDEX_MISSING iff the version
is nonpositive or there are no snapshots; otherwise it fails with INDEX_STALE
iff snapshot aliases repeat, or the snapshot-alias set differs from the
active-source-alias set, or some active source lacks a checksum or disagrees
with its snapshot; otherwise it passes. -/
theorem c3_ensure_index_current (catalog : SourceCatalog) :
    (error_code (ensure_index_current catalog) = some "INDEX_MISSING"
        ↔ index_missing_condition catalog)
    ∧ (error_code (ensure_index_current catalog) = some "INDEX_STALE"
        ↔ ¬ index_missing_condition catalog ∧ index_stale_condition catalog)
    ∧ (ensure_index_current catalog = .ok ()
        ↔ ¬ index_missing_condition catalog ∧ ¬ index_stale_condition catalog) := by
  by_cases hmiss : catalog.version ≤ 0 ∨ catalog.snapshots = []
  · refine ⟨?_, ?_, ?_⟩ <;>
      simp [ensure_index_current, hmiss, error_code, index_unavailable,
        index_missing_condition]
  · have hmiss' : ¬ index_missing_condition catalog := hmiss
    by_cases hdup : (catalog.snapshots.map (·.alias_)).Nodup
    · by_cases halign : (catalog.snapshots.map (·.alias_)).toFinset
          = ((catalog.sources.filter is_active_source).map (·.alias_)).toFinset
      · have hcard : ¬((catalog.snapshots.map (·.alias_)).toFinset.card
            ≠ catalog.snapshots.length) := by
          have := (toFinset_card_eq_length_iff (catalog.snapshots.map (·.alias_))).2 hdup
          simpa [List.length_map] using this
        have hguard : ensure_index_current catalog
            = check_active_sources (snapshot_checksum_get catalog.snapshots)
                (catalog.sources.filter is_active_source) := by
          simp only [ensure_index_current]
          rw [if_neg hmiss, if_neg hcard, if_neg (fun h => h halign)]
        by_cases hloop : ∀ s ∈ catalog.sources.filter is_active_source,
            ¬(s.checksum = none ∨ snapshot_checksum_get catalog.snapshots s.alias_ ≠ s.checksum)
        · have hok := (check_active_sources_ok_iff
            (snapshot_checksum_get catalog.snapshots)
            (catalog.sources.filter is_active_source)).2 hloop
          have hstale : ¬ index_stale_condition catalog := by
            intro hst
            rcases hst with h | h | h
            · exact h hdup
            · exact h halign
            · rcases h with ⟨s, hs, hbad⟩
              exact hloop s hs hbad
          refine ⟨?_, ?_, ?_⟩ <;>
            simp [hguard, hok, error_code, hmiss', hstale]
        · have hex : ∃ s ∈ catalog.sources.filter is_active_source,
              s.checksum = none ∨ snapshot_checksum_get catalog.snapshots s.alias_ ≠ s.checksum := by
            push_neg at hloop
            rcases hloop with ⟨s, hs, hbad⟩
            exact ⟨s, hs, by tauto⟩
          have hnok : check_active_sources (snapshot_checksum_get catalog.snapshots)
              (catalog.sources.filter is_active_source) ≠ .ok () := by
            intro h
            exact hloop ((check_active_sources_ok_iff _ _).1 h)
          have hcode := (check_active_sources_code
            (snapshot_checksum_get catalog.snapshots)
            (catalog.sources.filter is_active_source)).resolve_left hnok
          have hstale : index_stale_condition catalog := .inr (.inr hex)
          refine ⟨?_, ?_, ?_⟩
          · rw [hguard, hcode]
            simp [hmiss', index_missing_condition, hmiss]
          · rw [hguard, hcode]
            simp [hmiss', hstale]
          · constructor
            · intro h; exact absurd (hguard ▸ h) hnok
            · intro h; exact absurd hstale h.2
      · have hcard : ¬((catalog.snapshots.map (·.alias_)).toFinset.card
            ≠ catalog.snapshots.length) := by
          have := (toFinset_card_eq_length_iff (catalog.snapshots.map (·.alias_))).2 hdup
          simpa [List.length_map] using this
        have hstale : index_stale_condition catalog := .inr (.inl halign)
        refine ⟨?_, ?_, ?_⟩ <;>
          simp [ensure_index_current, hmiss, hcard, halign, error_code,
            index_unavailable, hmiss', hstale]
    · have hcard : (catalog.snapshots.map (·.alias_)).toFinset.card
          ≠ catalog.snapshots.length := by
        intro h
        exact hdup ((toFinset_card_eq_length_iff _).1 (by simpa [List.length_map] using h))
      have hstale : index_stale_condition catalog := .inl hdup
      refine ⟨?_, ?_, ?_⟩ <;>
        simp [ensure_index_current, hmiss, hcard, error_code, index_unavailable,
          hmiss', hstale]

/-- Helper: `String.append` concatenates the character lists. -/
theorem string_data_append (a b : String) : (a ++ b).data = a.data ++ b.data := by
  cases a; cases b; rfl

/-- Helper: a character list begins with itself. -/
theorem isPrefixOf_append_self (l t : List Char) : l.isPrefixOf (l ++ t) = true := by
  induction l with
  | nil => simp
  | cons c cs ih => simp [List.isPrefixOf_cons₂, ih]

/-- Helper: a tag begins every label built by appending to it. -/
theorem tag_of_append (tag a : String) : tag.data.isPrefixOf ((tag ++ a).data) = true := by
  rw [string_data_append]
  exact isPrefixOf_append_self _ _

/-- Helper: an `"ingesting:"` tag never matches a `"skipping:"` label. -/
theorem ingesting_tag_not_skipping (a : String) :
    "ingesting:".data.isPrefixOf (("skipping:" ++ a).data) = false := by
  rw [string_data_append]
  rfl

/-- Helper: a `"skipping:"` tag never matches an `"ingesting:"` label. -/
theorem skipping_tag_not_ingesting (a : String) :
    "skipping:".data.isPrefixOf (("ingesting:" ++ a).data) = false := by
  rw [string_data_append]
  rfl

/-- Helper: the stage labels emitted by the reindex loop, in catalog order:
one label per active source. -/
theorem reindex_loop_stages (env : ReindexEnv) (total : Nat) (now : Timestamp)
    (sources : List SourceRecord) (st : ReindexService.LoopState) :
    ((ReindexService.reindex_loop env total now sources st).progress).map (·.stage)
      = st.progress.map (·.stage)
        ++ (sources.filter (fun r => r.status = .active)).map
            (fun r => some (reindex_stage_label env r)) := by
  induction sources generalizing st with
  | nil => simp [ReindexService.reindex_loop]
  | cons record rest ih =>
    by_cases h : record.status = .active
    · rw [ReindexService.reindex_loop, ih]
      simp [ReindexService.reindex_source_step, h, reindex_stage_label, reindex_changed]
    · rw [ReindexService.reindex_loop, ih]
      simp [ReindexService.reindex_source_step, h]

/-- Helper: the percentages emitted by the reindex loop: the k-th active
source (counting from the initial `processed_sources`) reports
`(processed + k + 1) / total * 100`. -/
theorem reindex_loop_percents (env : ReindexEnv) (total : Nat) (now : Timestamp)
    (sources : List SourceRecord) (st : ReindexService.LoopState) :
    ((ReindexService.reindex_loop env total now sources st).progress).map (·.percent_complete)
      = st.progress.map (·.percent_complete)
        ++ (List.range (sources.filter (fun r => r.status = .active)).length).map
            (fun k => some (if total = 0 then (100 : Rat)
              else ((st.processed_sources + k + 1 : Nat) : Rat) / (total : Rat) * 100)) := by
  induction sources generalizing st with
  | nil => simp [ReindexService.reindex_loop]
  | cons record rest ih =>
    by_cases h : record.status = .active
    · rw [ReindexService.reindex_loop, ih]
      rw [List.filter_cons_of_pos (by simp [h]), List.length_cons, List.range_succ_eq_map]
      simp only [ReindexService.reindex_source_step, h, ne_eq, not_true_eq_false, if_false,
        List.map_cons, List.map_map, List.map_append, List.append_assoc, List.cons_append,
        List.nil_append, List.map_nil, Nat.add_zero]
      congr 1
      congr 1
      apply List.map_congr_left
      intro k hk
      simp only [Function.comp_apply, Option.some.injEq]
      by_cases ht : total = 0
      · simp [ht]
      · simp only [if_neg ht]
        push_cast
        ring
    · rw [ReindexService.reindex_loop, ih]
      simp [ReindexService.reindex_source_step, h]

/-- Helper: the snapshots accumulated by the reindex loop: one per active
source, in catalog order, carrying the freshly computed checksum. -/
theorem reindex_loop_snapshots (env : ReindexEnv) (total : Nat) (now : Timestamp)
    (sources : List SourceRecord) (st : ReindexService.LoopState) :
    (ReindexService.reindex_loop env total now sources st).new_snapshots
      = st.new_snapshots
        ++ (sources.filter (fun r => r.status = .active)).map
            (fun r => { alias_ := r.alias_, checksum := reindex_new_checksum env r }) := by
  induction sources generalizing st with
  | nil => simp [ReindexService.reindex_loop]
  | cons record rest ih =>
    by_cases h : record.status = .active
    · rw [ReindexService.reindex_loop, ih]
      simp [ReindexService.reindex_source_step, h, reindex_new_checksum]
    · rw [ReindexService.reindex_loop, ih]
      simp [ReindexService.reindex_source_step, h]

/-- Helper: the tag test on an emitted label recognises exactly the changed
(respectively unchanged) sources. -/
theorem stage_option_tag_label (env : ReindexEnv) (record : SourceRecord) :
    stage_option_has_tag "ingesting:" (some (reindex_stage_label env record))
        = reindex_changed env record
    ∧ stage_option_has_tag "skipping:" (some (reindex_stage_label env record))
        = !(reindex_changed env record) := by
  by_cases h : reindex_changed env record
  · constructor
    · simp only [stage_option_has_tag, reindex_stage_label, if_pos h, h]
      exact tag_of_append _ _
    · simp only [stage_option_has_tag, reindex_stage_label, if_pos h, h, Bool.not_true]
      exact skipping_tag_not_ingesting _
  · constructor
    · simp only [stage_option_has_tag, reindex_stage_label, if_neg h,
        Bool.not_eq_true] at h ⊢
      rw [ingesting_tag_not_skipping, h]
    · simp only [stage_option_has_tag, reindex_stage_label, if_neg h,
        Bool.not_eq_true] at h ⊢
      rw [tag_of_append, h, Bool.not_false]

/-- C2: over any catalog, a reindex run that raises no exception emits one
stage transition per active source — `"ingesting:<alias>"` for exactly the M
sources whose current checksum differs from the stored one, `"skipping:"` for
the other N−M — reports `percent = processed / total_active * 100` after each
active source, and ends SUCCEEDED at stage "completed" and percent 100 with
the persisted catalog's version bumped by one. -/
theorem c2_reindex_run (env : ReindexEnv) (trigger : IngestionTrigger) (job_id : String)
    (catalog : SourceCatalog) (now : Timestamp) :
    (ReindexService.run env trigger job_id catalog now).progress.countP
        (stage_has_tag "ingesting:")
      = ((catalog.sources.filter (fun r => r.status = .active)).filter
          (reindex_changed env)).length
    ∧ (ReindexService.run env trigger job_id catalog now).progress.countP
        (stage_has_tag "skipping:")
      = (catalog.sources.filter (fun r => r.status = .active)).length
          - ((catalog.sources.filter (fun r => r.status = .active)).filter
              (reindex_changed env)).length
    ∧ (ReindexService.run env trigger job_id catalog now).progress.map (·.stage)
      = some "preparing_index"
          :: (catalog.sources.filter (fun r => r.status = .active)).map
              (fun r => some (reindex_stage_label env r))
    ∧ (ReindexService.run env trigger job_id catalog now).progress.map (·.percent_complete)
      = some 0
          :: (List.range (catalog.sources.filter (fun r => r.status = .active)).length).map
              (fun k => some (((k + 1 : Nat) : Rat)
                / ((catalog.sources.filter (fun r => r.status = .active)).length : Rat) * 100))
    ∧ (ReindexService.run env trigger job_id catalog now).final_job.status = .succeeded
    ∧ (ReindexService.run env trigger job_id catalog now).final_job.percent_complete = some 100
    ∧ (ReindexService.run env trigger job_id catalog now).final_job.stage = some "completed"
    ∧ (ReindexService.run env trigger job_id catalog now).new_catalog.version
        = catalog.version + 1 := by
  have hstages :
      (ReindexService.run env trigger job_id catalog now).progress.map (·.stage)
        = some "preparing_index"
            :: (catalog.sources.filter (fun r => r.status = .active)).map
                (fun r => some (reindex_stage_label env r)) := by
    show (ReindexService.reindex_loop env _ now catalog.sources _).progress.map (·.stage) = _
    rw [reindex_loop_stages]
    rfl
  have hcount : ∀ tag : String,
      (ReindexService.run env trigger job_id catalog now).progress.countP
          (stage_has_tag tag)
        = ((ReindexService.run env trigger job_id catalog now).progress.map (·.stage)).countP
            (stage_option_has_tag tag) := by
    intro tag
    rw [List.countP_map]
    rfl
  refine ⟨?_, ?_, hstages, ?_, rfl, rfl, rfl, rfl⟩
  · rw [hcount, hstages]
    rw [List.countP_cons_of_neg _ _ (by decide), List.countP_map]
    rw [List.countP_congr (fun r _ => by
      simpa [Function.comp] using (stage_option_tag_label env r).1)]
    rw [List.countP_eq_length_filter]
  · rw [hcount, hstages]
    rw [List.countP_cons_of_neg _ _ (by decide), List.countP_map]
    rw [List.countP_congr (fun r _ => by
      simpa [Function.comp] using (stage_option_tag_label env r).2)]
    have hsplit := List.length_eq_countP_add_countP (p := reindex_changed env)
      (catalog.sources.filter (fun r => r.status = .active))
    have hnotc : List.countP (fun a => ¬reindex_changed env a = true)
          (catalog.sources.filter (fun r => r.status = .active))
        = List.countP (fun r => !reindex_changed env r)
          (catalog.sources.filter (fun r => r.status = .active)) :=
      List.countP_congr (fun a _ => by simp)
    rw [hnotc, List.countP_eq_length_filter] at hsplit
    omega
  · show (ReindexService.reindex_loop env _ now catalog.sources _).progress.map
        (·.percent_complete) = _
    rw [reindex_loop_percents]
    by_cases hN : (catalog.sources.filter (fun r => r.status = .active)).length = 0
    · simp [hN]
    · simp only [List.map_cons, List.map_nil, List.cons_append, List.nil_append,
        List.cons.injEq, true_and]
      apply List.map_congr_left
      intro k hk
      simp [hN]

/-- C9 counterexample: a catalog whose two active sources appear in the order
b, a yields a persisted catalog whose snapshots are in that same order — not
sorted by alias.  (`run` sorts `updated_sources`, `reindex_service.py` line
160; `new_snapshots` is persisted in append order, lines 142-165.) -/
theorem c9_counterexample :
    (ReindexService.run
        { resolve_location := fun p => p
          checksum_calculator := fun _ => "c1"
          stat_size := fun _ => 0
          chunk_count := fun _ _ _ _ => 1 }
        .manual "job-1"
        { version := 1, updated_at := 0
          sources :=
            [{ alias_ := "b", type := .man, location := "lb", language := "en",
               size_bytes := 0, last_updated := 0, status := .active, checksum := some "old" },
             { alias_ := "a", type := .man, location := "la", language := "en",
               size_bytes := 0, last_updated := 0, status := .active, checksum := some "old" }]
          snapshots := [] }
        5).new_catalog.snapshots.map (·.alias_) = ["b", "a"]
    ∧ ¬ List.Sorted (fun x y : String => x ≤ y) ["b", "a"] := by
  constructor
  · rfl
  · intro hsorted
    have hba := List.rel_of_sorted_cons hsorted "a" (by simp)
    have := String.le_iff_toList_le.1 hba
    revert this
    decide

/-- C9 (amended): on a run that raises no exception the persisted catalog's
source list is sorted by alias; the snapshot list is in the prior catalog's
active-source order (append order), carrying the freshly computed checksums —
it is not itself sorted. -/
theorem c9_run_catalog_order (env : ReindexEnv) (trigger : IngestionTrigger)
    (job_id : String) (catalog : SourceCatalog) (now : Timestamp) :
    List.Sorted (fun a b : SourceRecord => a.alias_ ≤ b.alias_)
      ((ReindexService.run env trigger job_id catalog now).new_catalog.sources)
    ∧ (ReindexService.run env trigger job_id catalog now).new_catalog.snapshots
        = (catalog.sources.filter (fun r => r.status = .active)).map
            (fun r => { alias_ := r.alias_, checksum := reindex_new_checksum env r }) := by
  constructor
  · haveI : IsTotal SourceRecord (fun a b : SourceRecord => a.alias_ ≤ b.alias_) :=
      ⟨fun a b => le_total _ _⟩
    haveI : IsTrans SourceRecord (fun a b : SourceRecord => a.alias_ ≤ b.alias_) :=
      ⟨fun a b c hab hbc => le_trans hab hbc⟩
    exact List.sorted_insertionSort _ _
  · show (ReindexService.reindex_loop _ _ _ catalog.sources _).new_snapshots = _
    rw [reindex_loop_snapshots]
    rfl

/-- C5: a connection whose first frame is a framing-level protocol error, or
a mapping that fails handshake validation (wrong type, protocol id or
version), receives exactly one error frame with code `HANDSHAKE_ERROR`
(status 400) and is terminated: whatever frames follow, nothing further is
written and no frame is ever dispatched — the connection never reaches
SERVING. -/
theorem c5_handshake_failures (env : RouterEnv) (conn_cid : String) (rest : List ReadEvent) :
    (∀ msg, handle_connection env conn_cid (.proto_error msg :: rest)
        = ([send_error 400 conn_cid "HANDSHAKE_ERROR" msg], []))
    ∧ (∀ members msg, handshake_response members = .error msg →
        handle_connection env conn_cid (.frame members :: rest)
          = ([send_error 400
                (normalize_correlation_id (json_get members "correlation_id") conn_cid)
                "HANDSHAKE_ERROR" msg], [])) := by
  constructor
  · intro msg
    rfl
  · intro members msg h
    simp [handle_connection, h]

/-- C5 witness: a handshake frame carrying protocol `"wrong"` yields the
`HANDSHAKE_ERROR` frame and an empty dispatch list even with further frames
queued behind it. -/
theorem c5_handshake_failures_witness :
    handshake_response [("protocol", Json.str "wrong"), ("type", Json.str "handshake"),
        ("version", Json.int 1)]
      = .error ("Unsupported protocol: " ++ py_repr "wrong")
    ∧ handle_connection
        { query := fun _ => .failure "", list_sources := .failure "",
          admin_init := .failure "", admin_health := fun _ => .failure "",
          start_reindex_job := fun _ _ =>
            { job_id := "j", source_alias := "*", status := .running, requested_at := 0 },
          serialize_job := fun _ => .null }
        "conn-1"
        [.frame [("protocol", Json.str "wrong"), ("type", Json.str "handshake"),
          ("version", Json.int 1)],
         .frame [("path", Json.str "/v1/query"), ("type", Json.str "request")]]
      = ([send_error 400
            (normalize_correlation_id
              (json_get [("protocol", Json.str "wrong"), ("type", Json.str "handshake"),
                ("version", Json.int 1)] "correlation_id") "conn-1")
            "HANDSHAKE_ERROR" ("Unsupported protocol: " ++ py_repr "wrong")], []) :=
  ⟨rfl,
   (c5_handshake_failures _ "conn-1" _).2
     [("protocol", Json.str "wrong"), ("type", Json.str "handshake"), ("version", Json.int 1)]
     ("Unsupported protocol: " ++ py_repr "wrong") rfl⟩

/-- C1 (code-bug evidence): for an established connection, the router does
return a `StreamingResponse` (initial 202 accepted body plus the job
stream) for `/v1/index/reindex` — but the serving loop's tuple unpacking of
that dataclass raises `TypeError`, so the connection receives a single 500
`INTERNAL_ERROR` response frame: no 202 accepted frame and no job-state
frames are ever written, contradicting the spec's streaming contract and
the repo's own contract test
(`tests/python/contract/test_transport_endpoints.py`,
`test_reindex_endpoint_streams_job_updates`). -/
theorem c1_reindex_stream_never_written (env : RouterEnv) (conn_cid : String) :
    dispatch env "/v1/index/reindex" (.obj [("trigger", .str "manual")])
      = .streaming 202 (.obj [("job", env.serialize_job (env.start_reindex_job .manual false))])
    ∧ handle_connection env conn_cid
        [.frame [("protocol", Json.str "rag-cli-ipc"), ("type", Json.str "handshake"),
          ("version", Json.int 1)],
         .frame [("body", Json.obj [("trigger", Json.str "manual")]),
          ("correlation_id", Json.str "contract-reindex"),
          ("path", Json.str "/v1/index/reindex"), ("type", Json.str "request")],
         .closed]
      = ([handshake_ack,
          send_error 500 "contract-reindex" "INTERNAL_ERROR" "Internal server error"],
         [("/v1/index/reindex", Json.obj [("trigger", Json.str "manual")])]) := by
  exact ⟨rfl, rfl⟩

/-- Helper: every Lean `Char` is a Unicode scalar value: below the surrogate
range or strictly between it and `0x110000`. -/
theorem char_toNat_valid (c : Char) :
    c.toNat < 0xd800 ∨ (0xdfff < c.toNat ∧ c.toNat < 0x110000) := by
  simpa [UInt32.isValidChar, Nat.isValidChar, Char.toNat] using c.valid

/-- Helper: scanning a hex digit the encoder printed gives the value back. -/
theorem hex_val_to_hex_digit (d : Nat) (h : d < 16) :
    hex_val? (to_hex_digit d) = some d := by
  interval_cases d <;> decide

/-- Helper: `parse_u` past four scanned hex digits. -/
theorem parse_u_quad (h1 h2 h3 h4 : Char) (v1 v2 v3 v4 : Nat) (t acc : List Char)
    (e1 : hex_val? h1 = some v1) (e2 : hex_val? h2 = some v2)
    (e3 : hex_val? h3 = some v3) (e4 : hex_val? h4 = some v4) :
    parse_u (h1 :: h2 :: h3 :: h4 :: t) acc =
      (if 0xd800 ≤ ((v1 * 16 + v2) * 16 + v3) * 16 + v4
          ∧ ((v1 * 16 + v2) * 16 + v3) * 16 + v4 ≤ 0xdbff then
        parse_surrogate_low (((v1 * 16 + v2) * 16 + v3) * 16 + v4) t acc
      else if 0xdc00 ≤ ((v1 * 16 + v2) * 16 + v3) * 16 + v4
          ∧ ((v1 * 16 + v2) * 16 + v3) * 16 + v4 ≤ 0xdfff then none
      else parse_string_body t
        (Char.ofNat (((v1 * 16 + v2) * 16 + v3) * 16 + v4) :: acc)) := by
  rw [parse_u, e1, e2, e3, e4]

/-- Helper: `parse_surrogate_low` past four scanned hex digits. -/
theorem parse_surrogate_low_quad (v : Nat) (g1 g2 g3 g4 : Char) (w1 w2 w3 w4 : Nat)
    (t acc : List Char)
    (e1 : hex_val? g1 = some w1) (e2 : hex_val? g2 = some w2)
    (e3 : hex_val? g3 = some w3) (e4 : hex_val? g4 = some w4) :
    parse_surrogate_low v ('\\' :: 'u' :: g1 :: g2 :: g3 :: g4 :: t) acc =
      (if 0xdc00 ≤ ((w1 * 16 + w2) * 16 + w3) * 16 + w4
          ∧ ((w1 * 16 + w2) * 16 + w3) * 16 + w4 ≤ 0xdfff then
        parse_string_body t
          (Char.ofNat (0x10000 + (v - 0xd800) * 1024
            + (((w1 * 16 + w2) * 16 + w3) * 16 + w4 - 0xdc00)) :: acc)
      else none) := by
  rw [parse_surrogate_low, e1, e2, e3, e4]

/-- Helper: scanning backslash-u hands off to `parse_u`. -/
theorem parse_string_body_bsu (rest acc : List Char) :
    parse_string_body ('\\' :: 'u' :: rest) acc = parse_u rest acc := by
  rw [parse_string_body, if_neg (by decide), if_pos rfl, parse_escape]
  rw [if_neg (by decide), if_neg (by decide), if_neg (by decide), if_neg (by decide),
    if_neg (by decide), if_neg (by decide), if_neg (by decide), if_neg (by decide),
    if_pos rfl]

/-- Helper: `parse_u` on a printed `hex4 v`. -/
theorem parse_u_hex4 (v : Nat) (hv : v < 65536) (rest acc : List Char) :
    parse_u (hex4 v ++ rest) acc =
      (if 0xd800 ≤ v ∧ v ≤ 0xdbff then parse_surrogate_low v rest acc
      else if 0xdc00 ≤ v ∧ v ≤ 0xdfff then none
      else parse_string_body rest (Char.ofNat v :: acc)) := by
  show parse_u (to_hex_digit (v / 4096 % 16) :: to_hex_digit (v / 256 % 16)
    :: to_hex_digit (v / 16 % 16) :: to_hex_digit (v % 16) :: rest) acc = _
  rw [parse_u_quad _ _ _ _ _ _ _ _ _ _
    (hex_val_to_hex_digit _ (Nat.mod_lt _ (by norm_num)))
    (hex_val_to_hex_digit _ (Nat.mod_lt _ (by norm_num)))
    (hex_val_to_hex_digit _ (Nat.mod_lt _ (by norm_num)))
    (hex_val_to_hex_digit _ (Nat.mod_lt _ (by norm_num)))]
  have hval : ((v / 4096 % 16 * 16 + v / 256 % 16) * 16 + v / 16 % 16) * 16 + v % 16 = v := by
    omega
  rw [hval]

/-- Helper: `parse_surrogate_low` on a printed `hex4 w`. -/
theorem parse_surrogate_hex4 (v w : Nat) (hw : w < 65536) (rest acc : List Char) :
    parse_surrogate_low v ('\\' :: 'u' :: (hex4 w ++ rest)) acc =
      (if 0xdc00 ≤ w ∧ w ≤ 0xdfff then
        parse_string_body rest
          (Char.ofNat (0x10000 + (v - 0xd800) * 1024 + (w - 0xdc00)) :: acc)
      else none) := by
  show parse_surrogate_low v ('\\' :: 'u' :: to_hex_digit (w / 4096 % 16)
    :: to_hex_digit (w / 256 % 16) :: to_hex_digit (w / 16 % 16)
    :: to_hex_digit (w % 16) :: rest) acc = _
  rw [parse_surrogate_low_quad _ _ _ _ _ _ _ _ _ _ _
    (hex_val_to_hex_digit _ (Nat.mod_lt _ (by norm_num)))
    (hex_val_to_hex_digit _ (Nat.mod_lt _ (by norm_num)))
    (hex_val_to_hex_digit _ (Nat.mod_lt _ (by norm_num)))
    (hex_val_to_hex_digit _ (Nat.mod_lt _ (by norm_num)))]
  have hval : ((w / 4096 % 16 * 16 + w / 256 % 16) * 16 + w / 16 % 16) * 16 + w % 16 = w := by
    omega
  rw [hval]

/-- Helper: scanning one encoded character appends that character — the
core inversion of `py_encode_basestring_ascii` against `py_scanstring`. -/
theorem parse_encode_char (c : Char) (acc t : List Char) :
    parse_string_body (encode_char c ++ t) acc = parse_string_body t (c :: acc) := by
  by_cases h1 : c = '"'
  · subst h1; simp [encode_char, parse_string_body, parse_escape]
  by_cases h2 : c = '\\'
  · subst h2; simp [encode_char, parse_string_body, parse_escape]
  by_cases h3 : c = '\x08'
  · subst h3; simp [encode_char, parse_string_body, parse_escape]
  by_cases h4 : c = '\x0c'
  · subst h4; simp [encode_char, parse_string_body, parse_escape]
  by_cases h5 : c = '\n'
  · subst h5; simp [encode_char, parse_string_body, parse_escape]
  by_cases h6 : c = '\r'
  · subst h6; simp [encode_char, parse_string_body, parse_escape]
  by_cases h7 : c = '\t'
  · subst h7; simp [encode_char, parse_string_body, parse_escape]
  by_cases h8 : c.toNat < 0x20 ∨ 0x7f ≤ c.toNat
  · have hval := char_toNat_valid c
    have hns1 : ¬(0xd800 ≤ c.toNat ∧ c.toNat ≤ 0xdbff) := by
      rcases hval with h | h <;> omega
    have hns2 : ¬(0xdc00 ≤ c.toNat ∧ c.toNat ≤ 0xdfff) := by
      rcases hval with h | h <;> omega
    by_cases h9 : c.toNat < 0x10000
    · have hc : encode_char c = '\\' :: 'u' :: hex4 c.toNat := by
        rw [encode_char, if_neg h1, if_neg h2, if_neg h3, if_neg h4, if_neg h5,
          if_neg h6, if_neg h7, if_pos h8, if_pos h9]
      rw [hc, List.cons_append, List.cons_append, parse_string_body_bsu,
        parse_u_hex4 _ h9, if_neg hns1, if_neg hns2, Char.ofNat_toNat]
    · have hlt : c.toNat < 0x110000 := by
        rcases hval with h | h
        · omega
        · exact h.2
      have hc : encode_char c
          = '\\' :: 'u' :: hex4 (0xd800 + (c.toNat - 0x10000) / 1024)
            ++ '\\' :: 'u' :: hex4 (0xdc00 + (c.toNat - 0x10000) % 1024) := by
        rw [encode_char, if_neg h1, if_neg h2, if_neg h3, if_neg h4, if_neg h5,
          if_neg h6, if_neg h7, if_pos h8, if_neg h9]
      rw [hc]
      simp only [List.cons_append, List.append_assoc]
      rw [parse_string_body_bsu, parse_u_hex4 _ (by omega),
        if_pos (by omega : 0xd800 ≤ 0xd800 + (c.toNat - 0x10000) / 1024
          ∧ 0xd800 + (c.toNat - 0x10000) / 1024 ≤ 0xdbff),
        parse_surrogate_hex4 _ _ (by omega),
        if_pos (by omega : 0xdc00 ≤ 0xdc00 + (c.toNat - 0x10000) % 1024
          ∧ 0xdc00 + (c.toNat - 0x10000) % 1024 ≤ 0xdfff)]
      have harith : 0x10000 + (0xd800 + (c.toNat - 0x10000) / 1024 - 0xd800) * 1024
          + (0xdc00 + (c.toNat - 0x10000) % 1024 - 0xdc00) = c.toNat := by
        omega
      rw [harith, Char.ofNat_toNat]
  · have hc : encode_char c = [c] := by
      rw [encode_char, if_neg h1, if_neg h2, if_neg h3, if_neg h4, if_neg h5,
        if_neg h6, if_neg h7, if_neg h8]
    push_neg at h8
    rw [hc, List.cons_append, List.nil_append, parse_string_body, if_neg h1, if_neg h2,
      if_neg (by omega : ¬(c.toNat < 0x20))]

/-- Helper: scanning an encoded string body up to the closing quote yields
the original characters. -/
theorem parse_encode_string_body (cs : List Char) : ∀ acc rest : List Char,
    parse_string_body (encode_string_body cs ++ '"' :: rest) acc
      = some (String.mk (acc.reverse ++ cs), rest) := by
  induction cs with
  | nil =>
    intro acc rest
    simp [encode_string_body, parse_string_body]
  | cons c cs ih =>
    intro acc rest
    rw [encode_string_body, List.append_assoc, parse_encode_char, ih]
    simp

/-- Helper: rebuilding a string from its characters. -/
theorem string_mk_data (s : String) : String.mk s.data = s := by
  cases s
  rfl

/-- Helper: the characters `nat_digits` prints are decimal digits with the
expected code points. -/
theorem digit_char_facts : ∀ d, d < 10 →
    (Char.ofNat (48 + d)).isDigit = true ∧ (Char.ofNat (48 + d)).toNat = 48 + d := by
  decide

/-- Helper: `nat_digits` starts with a digit character. -/
theorem nat_digits_head (n : Nat) :
    ∃ d tl, d < 10 ∧ nat_digits n = Char.ofNat (48 + d) :: tl := by
  induction n using Nat.strong_induction_on with
  | _ n ih =>
    rw [nat_digits]
    split
    · next h => exact ⟨n, [], h, rfl⟩
    · next h =>
      obtain ⟨d, tl, hd, heq⟩ := ih (n / 10) (Nat.div_lt_self (by omega) (by omega))
      exact ⟨d, tl ++ [Char.ofNat (48 + n % 10)], hd, by rw [heq]; rfl⟩

/-- Helper: every character `nat_digits` prints is a digit. -/
theorem nat_digits_all_digit (n : Nat) : ∀ c ∈ nat_digits n, c.isDigit = true := by
  induction n using Nat.strong_induction_on with
  | _ n ih =>
    rw [nat_digits]
    split
    · next h =>
      intro c hc
      rw [List.mem_singleton] at hc
      subst hc
      exact (digit_char_facts n h).1
    · next h =>
      intro c hc
      rw [List.mem_append] at hc
      rcases hc with hc | hc
      · exact ih (n / 10) (Nat.div_lt_self (by omega) (by omega)) c hc
      · rw [List.mem_singleton] at hc
        subst hc
        exact (digit_char_facts (n % 10) (Nat.mod_lt _ (by omega))).1

/-- Helper: the digit scanner across a printed numeral accumulates its
value. -/
theorem parse_nat_digits_encode (n : Nat) : ∀ (acc : Nat) (rest : List Char),
    parse_nat_digits (nat_digits n ++ rest) acc
      = parse_nat_digits rest (acc * 10 ^ (nat_digits n).length + n) := by
  induction n using Nat.strong_induction_on with
  | _ n ih =>
    intro acc rest
    by_cases h : n < 10
    · rw [nat_digits, dif_pos h, List.cons_append, List.nil_append, parse_nat_digits,
        if_pos (by simp [(digit_char_facts n h).1]), (digit_char_facts n h).2]
      norm_num
    · rw [nat_digits, dif_neg h, List.append_assoc,
        ih (n / 10) (Nat.div_lt_self (by omega) (by omega)), List.cons_append,
        List.nil_append, parse_nat_digits,
        if_pos (by simp [(digit_char_facts (n % 10) (Nat.mod_lt _ (by omega))).1]),
        (digit_char_facts (n % 10) (Nat.mod_lt _ (by omega))).2]
      rw [List.length_append, List.length_singleton]
      congr 1
      have hdm : n / 10 * 10 + n % 10 = n := by omega
      calc (acc * 10 ^ (nat_digits (n / 10)).length + n / 10) * 10 + (48 + n % 10 - 48)
          = acc * (10 ^ (nat_digits (n / 10)).length * 10) + (n / 10 * 10 + n % 10) := by
            have hmod : 48 + n % 10 - 48 = n % 10 := by omega
            rw [hmod]; ring
        _ = acc * 10 ^ ((nat_digits (n / 10)).length + 1) + n := by
            rw [hdm, pow_succ]
/-- Helper: the digit scanner stops at a non-digit boundary. -/
theorem parse_nat_digits_stop (acc : Nat) (rest : List Char)
    (hb : ∀ c, rest.head? = some c → c.isDigit = false) :
    parse_nat_digits rest acc = (acc, rest) := by
  cases rest with
  | nil => rfl
  | cons c tl =>
    rw [parse_nat_digits, if_neg (by simp [hb c rfl])]

/-- Helper: the scanner reads back a printed Python int (with a non-digit
boundary after it). -/
theorem parse_number_encode (n : Int) (rest : List Char)
    (hb : ∀ c, rest.head? = some c → c.isDigit = false) :
    parse_number (int_chars n ++ rest) = some (.int n, rest) := by
  cases n with
  | ofNat m =>
    obtain ⟨d, tl, hd, heq⟩ := nat_digits_head m
    have hdm : Char.ofNat (48 + d) ≠ '-' := by
      intro hcontra
      have h1 := (digit_char_facts d hd).2
      rw [hcontra] at h1
      have : (45 : Nat) = 48 + d := by simpa using h1
      omega
    show parse_number (nat_digits m ++ rest) = some (.int (Int.ofNat m), rest)
    rw [heq, List.cons_append]
    simp only [parse_number.eq_def]
    rw [if_neg hdm, if_pos (by simp [(digit_char_facts d hd).1])]
    rw [← List.cons_append, ← heq, parse_nat_digits_encode,
      parse_nat_digits_stop _ _ hb]
    norm_num
  | negSucc m =>
    obtain ⟨d, tl, hd, heq⟩ := nat_digits_head (m + 1)
    show parse_number ('-' :: (nat_digits (m + 1) ++ rest)) = _
    simp only [parse_number.eq_def]
    rw [if_pos trivial, heq, List.cons_append]
    simp only [(digit_char_facts d hd).1, if_true]
    rw [← List.cons_append, ← heq, parse_nat_digits_encode,
      parse_nat_digits_stop _ _ hb]
    simp [Int.negSucc_eq]

/-- Helper: every encoding is nonempty. -/
theorem encode_json_length_pos (j : Json) : 1 ≤ (encode_json j).length := by
  cases j with
  | null => simp [encode_json]
  | bool b => cases b <;> simp [encode_json]
  | int n =>
    cases n with
    | ofNat m =>
      obtain ⟨d, tl, _, heq⟩ := nat_digits_head m
      simp [encode_json, int_chars, heq]
    | negSucc m => simp [encode_json, int_chars]
  | str s => simp [encode_json]
  | arr vs => cases vs <;> simp [encode_json]
  | obj kvs => simp [encode_json]

/-- Helper: the joined members are at least as long as the per-member
value-plus-separator count. -/
theorem join_members_length_ge (m : List (String × List Char)) :
    (m.map (fun kv => kv.2.length + 1)).sum ≤ (join_members m).length + 1 := by
  induction m with
  | nil => simp [join_members]
  | cons kv rest ih =>
    cases rest with
    | nil =>
      simp [join_members, render_member]
      omega
    | cons kv2 rest2 =>
      simp only [join_members, render_member, List.map_cons, List.sum_cons,
        List.length_append, List.length_cons] at *
      omega

mutual

/-- Helper (mutual): the scanner-depth measure is bounded by the encoding
length. -/
theorem json_size_le_encode : (j : Json) → json_size j ≤ (encode_json j).length
  | .null => by simp [json_size, encode_json]
  | .bool b => by cases b <;> simp [json_size, encode_json]
  | .int n => by
    have h1 := encode_json_length_pos (.int n)
    simpa [json_size] using h1
  | .str s => by simp [json_size, encode_json]
  | .arr [] => by simp [json_size, elems_size, encode_json]
  | .arr (v :: rest) => by
    have h1 := json_size_le_encode v
    have h2 := elems_size_le_encode rest
    simp only [json_size, elems_size, encode_json, List.length_cons, List.length_append]
    omega
  | .obj kvs => by
    have h2 := members_size_le_sum kvs
    have hg := join_members_length_ge (sort_encoded (encode_members kvs))
    have hperm : List.Perm (sort_encoded (encode_members kvs)) (encode_members kvs) :=
      List.perm_insertionSort _ _
    have hsum := (hperm.map (fun kv => kv.2.length + 1)).sum_eq
    simp only [json_size, encode_json, List.length_cons, List.length_append]
    omega

/-- Helper (mutual): element-list measure bounded by tail-encoding length. -/
theorem elems_size_le_encode : (vs : List Json) → elems_size vs ≤ (encode_elems vs).length
  | [] => by simp [elems_size, encode_elems]
  | v :: rest => by
    have h1 := json_size_le_encode v
    have h2 := elems_size_le_encode rest
    simp only [elems_size, encode_elems, List.length_cons, List.length_append]
    omega

/-- Helper (mutual): member-list measure bounded by the per-member sums. -/
theorem members_size_le_sum :
    (kvs : List (String × Json)) →
      members_size kvs ≤ ((encode_members kvs).map (fun kv => kv.2.length + 1)).sum
  | [] => by simp [members_size, encode_members]
  | (k, v) :: rest => by
    have h1 := json_size_le_encode v
    have h2 := members_size_le_sum rest
    simp only [members_size, encode_members, List.map_cons, List.sum_cons]
    omega

end

/-- Helper: a canonical key list is a strictly increasing chain. -/
theorem canonical_keys_chain :
    ∀ ks : List String, json_canonical_keys ks = true →
      List.Chain' (fun a b : String => a < b) ks
  | [], _ => by simp
  | [k], _ => by simp
  | k1 :: k2 :: rest, h => by
    rw [json_canonical_keys, Bool.and_eq_true] at h
    rw [List.chain'_cons]
    exact ⟨of_decide_eq_true h.1, canonical_keys_chain (k2 :: rest) h.2⟩

/-- Helper: canonical keys make the rendered member list sorted by key. -/
theorem canonical_sorted_pairs (l : List (String × List Char))
    (h : json_canonical_keys (l.map (·.1)) = true) :
    List.Sorted (fun a b : String × List Char => a.1 ≤ b.1) l := by
  have hchain := canonical_keys_chain _ h
  have hpw : List.Pairwise (fun a b : String => a < b) (l.map (·.1)) :=
    List.chain'_iff_pairwise.1 hchain
  have hpw2 : List.Pairwise (fun a b : String => a ≤ b) (l.map (·.1)) :=
    hpw.imp le_of_lt
  exact List.pairwise_map.1 hpw2

/-- Helper: sorting already-canonical members is the identity. -/
theorem sort_encoded_canonical (l : List (String × List Char))
    (h : json_canonical_keys (l.map (·.1)) = true) :
    sort_encoded l = l :=
  List.Sorted.insertionSort_eq (canonical_sorted_pairs l h)

/-- Helper: encoding members keeps the key list. -/
theorem encode_members_keys (kvs : List (String × Json)) :
    (encode_members kvs).map (·.1) = kvs.map (·.1) := by
  induction kvs with
  | nil => simp [encode_members]
  | cons kv rest ih =>
    cases kv
    simp [encode_members, ih]

/-- Helper: an encoding starts with a character other than `]`. -/
theorem encode_json_head (j : Json) : ∃ c t, encode_json j = c :: t ∧ c ≠ ']' := by
  cases j with
  | null => exact ⟨'n', ['u', 'l', 'l'], by simp [encode_json], by decide⟩
  | bool b =>
    cases b
    · exact ⟨'f', ['a', 'l', 's', 'e'], by simp [encode_json], by decide⟩
    · exact ⟨'t', ['r', 'u', 'e'], by simp [encode_json], by decide⟩
  | int n =>
    cases n with
    | ofNat m =>
      obtain ⟨d, tl, hd, heq⟩ := nat_digits_head m
      refine ⟨Char.ofNat (48 + d), tl, by simp [encode_json, int_chars, heq], ?_⟩
      intro hcontra
      have h1 := (digit_char_facts d hd).2
      rw [hcontra] at h1
      have : (93 : Nat) = 48 + d := by simpa using h1
      omega
    | negSucc m =>
      exact ⟨'-', nat_digits (m + 1), by simp [encode_json, int_chars], by decide⟩
  | str s =>
    exact ⟨'"', encode_string_body s.data ++ ['"'], by simp [encode_json], by decide⟩
  | arr vs =>
    cases vs with
    | nil => exact ⟨'[', [']'], by simp [encode_json], by decide⟩
    | cons v rest =>
      exact ⟨'[', encode_json v ++ (encode_elems rest ++ [']']), by simp [encode_json],
        by decide⟩
  | obj kvs =>
    exact ⟨'{', join_members (sort_encoded (encode_members kvs)) ++ ['}'],
      by simp [encode_json], by decide⟩

/-- Helper: the size measure is positive. -/
theorem json_size_pos (j : Json) : 1 ≤ json_size j := by
  cases j <;> simp [json_size]

/-- Helper: digit characters differ from every value-dispatch character. -/
theorem digit_char_ne (d : Nat) (hd : d < 10) :
    Char.ofNat (48 + d) ≠ 'n' ∧ Char.ofNat (48 + d) ≠ 't' ∧ Char.ofNat (48 + d) ≠ 'f'
      ∧ Char.ofNat (48 + d) ≠ '"' ∧ Char.ofNat (48 + d) ≠ '[' ∧ Char.ofNat (48 + d) ≠ '{' := by
  revert hd
  revert d
  decide

/-- Helper: a joined member list starts with its first rendered member. -/
theorem join_members_head (m : String × List Char) (ms : List (String × List Char)) :
    ∃ t, join_members (m :: ms) = render_member m ++ t
      ∧ (ms = [] → t = []) := by
  cases ms with
  | nil => exact ⟨[], by simp [join_members], fun _ => rfl⟩
  | cons m2 ms2 =>
    exact ⟨',' :: join_members (m2 :: ms2), by simp [join_members], by simp⟩

/-- Helper: the central round-trip induction.  With enough fuel, the scanner
returns exactly the canonical value the encoder printed, leaving the rest of
the input (whose first character must not be a digit, so that a numeral is
not extended) untouched; likewise for the element and member productions. -/
theorem parse_encode_fuel : ∀ fuel : Nat,
    (∀ (j : Json) (rest : List Char), json_canonical j = true → json_size j ≤ fuel →
      (∀ c, rest.head? = some c → c.isDigit = false) →
      parse_value fuel (encode_json j ++ rest) = some (j, rest))
    ∧ (∀ (v : Json) (tail : List Json) (rest : List Char),
        json_canonical v = true → json_canonical_list tail = true →
        elems_size (v :: tail) ≤ fuel →
        parse_elements fuel (encode_json v ++ (encode_elems tail ++ (']' :: rest)))
          = some (v :: tail, rest))
    ∧ (∀ (k : String) (v : Json) (tail : List (String × Json)) (rest : List Char),
        json_canonical v = true → json_canonical_members tail = true →
        members_size ((k, v) :: tail) ≤ fuel →
        parse_members fuel
            (join_members (encode_members ((k, v) :: tail)) ++ ('}' :: rest))
          = some ((k, v) :: tail, rest)) := by
  intro fuel
  induction fuel with
  | zero =>
    refine ⟨?_, ?_, ?_⟩
    · intro j _ _ hsize _
      have := json_size_pos j
      omega
    · intro v tail _ _ _ hsize
      simp only [elems_size] at hsize
      omega
    · intro k v tail _ _ _ hsize
      simp only [members_size] at hsize
      omega
  | succ fuel ih =>
    obtain ⟨ih1, ih2, ih3⟩ := ih
    refine ⟨?_, ?_, ?_⟩
    · intro j rest hcanon hsize hb
      cases j with
      | null => simp [encode_json, parse_value]
      | bool b => cases b <;> simp [encode_json, parse_value]
      | int n =>
        rcases n with m | m
        · obtain ⟨d, tl, hd, heq⟩ := nat_digits_head m
          obtain ⟨hn1, hn2, hn3, hn4, hn5, hn6⟩ := digit_char_ne d hd
          show parse_value (fuel + 1) (nat_digits m ++ rest) = _
          rw [heq, List.cons_append]
          simp only [parse_value]
          rw [if_neg hn1, if_neg hn2, if_neg hn3, if_neg hn4, if_neg hn5, if_neg hn6,
            ← List.cons_append, ← heq]
          exact parse_number_encode (Int.ofNat m) rest hb
        · obtain ⟨d, tl, hd, heq⟩ := nat_digits_head (m + 1)
          show parse_value (fuel + 1) (('-' :: nat_digits (m + 1)) ++ rest) = _
          rw [List.cons_append]
          simp only [parse_value]
          rw [if_neg (by decide), if_neg (by decide), if_neg (by decide),
            if_neg (by decide), if_neg (by decide), if_neg (by decide),
            ← List.cons_append]
          exact parse_number_encode (Int.negSucc m) rest hb
      | str s =>
        have hrw : encode_json (.str s) ++ rest
            = '"' :: (encode_string_body s.data ++ ('"' :: rest)) := by
          simp [encode_json]
        rw [hrw]
        simp [parse_value, parse_encode_string_body, string_mk_data]
      | arr vs =>
        cases vs with
        | nil => simp [encode_json, parse_value]
        | cons v tail =>
          simp only [json_canonical, json_canonical_list, Bool.and_eq_true] at hcanon
          obtain ⟨hv, htail⟩ := hcanon
          have hsize' : elems_size (v :: tail) ≤ fuel := by
            simp only [json_size] at hsize
            omega
          obtain ⟨c0, t0, hhead, hne⟩ := encode_json_head v
          have hrw : encode_json (.arr (v :: tail)) ++ rest
              = '[' :: (encode_json v ++ (encode_elems tail ++ (']' :: rest))) := by
            simp [encode_json]
          rw [hrw]
          simp only [parse_value]
          rw [if_neg (by decide), if_neg (by decide), if_neg (by decide),
            if_neg (by decide), if_pos trivial]
          rw [hhead, List.cons_append]
          split
          · next r2 heq2 =>
            exfalso
            rw [List.cons_eq_cons] at heq2
            exact hne heq2.1
          · next heq2 =>
            rw [← List.cons_append, ← hhead, ih2 v tail rest hv htail hsize']
      | obj kvs =>
        cases kvs with
        | nil =>
          simp [encode_json, parse_value, sort_encoded, encode_members, join_members,
            List.insertionSort]
        | cons kv tail =>
          obtain ⟨k, v⟩ := kv
          simp only [json_canonical, json_canonical_members, Bool.and_eq_true] at hcanon
          obtain ⟨hkeys, hv, htail⟩ := hcanon
          have hsize' : members_size ((k, v) :: tail) ≤ fuel := by
            simp only [json_size] at hsize
            omega
          have hsort : sort_encoded (encode_members ((k, v) :: tail))
              = encode_members ((k, v) :: tail) := by
            apply sort_encoded_canonical
            rw [encode_members_keys]
            exact hkeys
          have hexp : encode_members ((k, v) :: tail)
              = (k, encode_json v) :: encode_members tail := by
            simp [encode_members]
          obtain ⟨t1, hjoin, _⟩ :=
            join_members_head (k, encode_json v) (encode_members tail)
          have hrw : encode_json (.obj ((k, v) :: tail)) ++ rest
              = '{' :: (join_members (encode_members ((k, v) :: tail)) ++ ('}' :: rest)) := by
            show ('{' :: join_members (sort_encoded (encode_members ((k, v) :: tail)))
                ++ ['}']) ++ rest = _
            rw [hsort]
            simp
          rw [hrw]
          simp only [parse_value]
          rw [if_neg (by decide), if_neg (by decide), if_neg (by decide),
            if_neg (by decide), if_neg (by decide), if_pos trivial]
          obtain ⟨T, hT⟩ : ∃ T,
              join_members (encode_members ((k, v) :: tail)) ++ '}' :: rest
                = '"' :: T := by
            rw [hexp, hjoin,
              show render_member (k, encode_json v)
                  = '"' :: (encode_string_body k.data ++ ('"' :: (':' :: encode_json v)))
                from by simp [render_member]]
            simp only [List.cons_append]
            exact ⟨_, rfl⟩
          rw [hT]
          split
          · next r2 heq2 =>
            exfalso
            rw [List.cons_eq_cons] at heq2
            exact absurd heq2.1 (by decide)
          · next heq2 =>
            rw [← hT, ih3 k v tail rest hv htail hsize']
    · intro v tail rest hv htail hsize
      cases tail with
      | nil =>
        have hbound : ∀ c : Char, (']' :: rest).head? = some c → c.isDigit = false := by
          intro c hc
          simp only [List.head?_cons, Option.some.injEq] at hc
          subst hc
          decide
        have hsv : json_size v ≤ fuel := by
          simp only [elems_size] at hsize
          omega
        simp only [parse_elements]
        rw [show encode_json v ++ (encode_elems [] ++ (']' :: rest))
            = encode_json v ++ (']' :: rest) from by simp [encode_elems],
          ih1 v (']' :: rest) hv hsv hbound]
        rfl
      | cons w tail2 =>
        simp only [json_canonical_list, Bool.and_eq_true] at htail
        obtain ⟨hw, htail2⟩ := htail
        have hsv : json_size v ≤ fuel := by
          simp only [elems_size] at hsize
          omega
        have hsw : elems_size (w :: tail2) ≤ fuel := by
          have := json_size_pos v
          simp only [elems_size] at hsize ⊢
          omega
        have hbound : ∀ c : Char,
            (',' :: (encode_json w ++ (encode_elems tail2 ++ (']' :: rest)))).head? = some c →
              c.isDigit = false := by
          intro c hc
          simp only [List.head?_cons, Option.some.injEq] at hc
          subst hc
          decide
        simp only [parse_elements]
        rw [show encode_json v ++ (encode_elems (w :: tail2) ++ (']' :: rest))
            = encode_json v
              ++ (',' :: (encode_json w ++ (encode_elems tail2 ++ (']' :: rest))))
            from by simp [encode_elems],
          ih1 v _ hv hsv hbound]
        simp only [ih2 w tail2 rest hw htail2 hsw]
    · intro k v tail rest hv htail hsize
      have hsv : json_size v ≤ fuel := by
        simp only [members_size] at hsize
        omega
      cases tail with
      | nil =>
        have hbound : ∀ c : Char, ('}' :: rest).head? = some c → c.isDigit = false := by
          intro c hc
          simp only [List.head?_cons, Option.some.injEq] at hc
          subst hc
          decide
        have hrw : join_members (encode_members [(k, v)]) ++ ('}' :: rest)
            = '"' :: (encode_string_body k.data
                ++ ('"' :: (':' :: (encode_json v ++ ('}' :: rest))))) := by
          simp [encode_members, join_members, render_member]
        rw [hrw]
        simp only [parse_members]
        rw [parse_encode_string_body, string_mk_data]
        simp only [ih1 v ('}' :: rest) hv hsv hbound]
        simp [string_mk_data]
      | cons m2 tail2 =>
        obtain ⟨k2, v2⟩ := m2
        simp only [json_canonical_members, Bool.and_eq_true] at htail
        obtain ⟨hv2, htail2⟩ := htail
        have hsm : members_size ((k2, v2) :: tail2) ≤ fuel := by
          have := json_size_pos v
          simp only [members_size] at hsize ⊢
          omega
        have hbound : ∀ c : Char,
            (',' :: (join_members (encode_members ((k2, v2) :: tail2))
              ++ ('}' :: rest))).head? = some c → c.isDigit = false := by
          intro c hc
          simp only [List.head?_cons, Option.some.injEq] at hc
          subst hc
          decide
        have hrw : join_members (encode_members ((k, v) :: (k2, v2) :: tail2)) ++ ('}' :: rest)
            = '"' :: (encode_string_body k.data
                ++ ('"' :: (':' :: (encode_json v
                  ++ (',' :: (join_members (encode_members ((k2, v2) :: tail2))
                    ++ ('}' :: rest))))))) := by
          simp [encode_members, join_members, render_member]
        rw [hrw]
        simp only [parse_members]
        rw [parse_encode_string_body, string_mk_data]
        simp only [ih1 v
          (',' :: (join_members (encode_members ((k2, v2) :: tail2)) ++ ('}' :: rest)))
          hv hsv hbound]
        simp only [ih3 k2 v2 tail2 rest hv2 htail2 hsm]
        simp [string_mk_data]

/-- Helper: a decimal digit character is not `str.strip` whitespace. -/
theorem digit_not_space (c : Char) (h : c.isDigit = true) : is_py_space c = false := by
  cases hx : is_py_space c
  · rfl
  · exfalso
    simp only [is_py_space, decide_eq_true_eq] at hx
    rcases hx with h1 | h1 | h1 | h1 | h1 | h1 <;> (subst h1; exact absurd h (by decide))

/-- Helper: stripping whitespace from a whitespace-free list is the
identity. -/
theorem dropWhile_no_space (l : List Char) (h : ∀ c ∈ l, is_py_space c = false) :
    l.dropWhile is_py_space = l := by
  cases l with
  | nil => rfl
  | cons c tl =>
    rw [List.dropWhile_cons, if_neg (by simp [h c (List.mem_cons_self c tl)])]

/-- Helper: `readline` returns a newline-free header together with its
newline, leaving the rest of the stream. -/
theorem read_line_digits (l : List Char) (h : ∀ c ∈ l, c ≠ '\n') :
    ∀ rest, read_line (l ++ '\n' :: rest) = (l ++ ['\n'], rest) := by
  induction l with
  | nil =>
    intro rest
    simp [read_line]
  | cons c tl ih =>
    intro rest
    simp only [List.cons_append, read_line]
    rw [if_neg (h c (List.mem_cons_self c tl))]
    simp [ih (fun c2 hc2 => h c2 (List.mem_cons_of_mem c hc2)) rest]

/-- Helper: `int(line.strip())` recovers the length `_write_frame` printed. -/
theorem parse_length_digits (n : Nat) :
    parse_length? (nat_digits n ++ ['\n']) = some n := by
  obtain ⟨d, tl, hd, heq⟩ := nat_digits_head n
  have hnosp : ∀ c ∈ nat_digits n, is_py_space c = false :=
    fun c hc => digit_not_space c (nat_digits_all_digit n c hc)
  have h1 : (nat_digits n ++ ['\n']).dropWhile is_py_space = nat_digits n ++ ['\n'] := by
    rw [heq, List.cons_append, List.dropWhile_cons,
      if_neg (by simp [digit_not_space _ (digit_char_facts d hd).1]), ← List.cons_append,
      ← heq]
  have h2 : ((nat_digits n ++ ['\n']).reverse).dropWhile is_py_space
      = (nat_digits n).reverse := by
    rw [List.reverse_append]
    simp only [List.reverse_singleton, List.singleton_append, List.dropWhile_cons]
    rw [if_pos (by decide)]
    exact dropWhile_no_space _ (fun c hc => hnosp c (List.mem_reverse.mp hc))
  simp only [parse_length?]
  rw [h1, h2, List.reverse_reverse]
  rw [if_pos ⟨by rw [heq]; simp, List.all_eq_true.mpr (nat_digits_all_digit n)⟩]
  have h3 : parse_nat_digits (nat_digits n) 0 = (n, []) := by
    have h4 := parse_nat_digits_encode n 0 []
    rw [List.append_nil] at h4
    rw [h4]
    simp [parse_nat_digits]
  rw [h3]

/-- C4: for every well-formed frame (canonical JSON value: object keys
strictly sorted at every level, the representative of a Python dict under
`sort_keys=True`), decoding the wire bytes produced by encoding it —
`<decimal-length>\n<compact sorted-keys json>\n` — yields the original frame
and leaves any following stream content untouched:
`_read_frame(_write_frame(frame) + extra) = (frame, extra)`. -/
theorem c4_decode_encode (frame : Json) (extra : List Char)
    (hcanon : json_canonical frame = true) :
    read_frame (write_frame frame ++ extra) = some (frame, extra) := by
  have hstream : write_frame frame ++ extra
      = nat_digits (encode_json frame).length
        ++ '\n' :: (encode_json frame ++ '\n' :: extra) := by
    simp [write_frame]
  have hne : ∀ c ∈ nat_digits (encode_json frame).length, c ≠ '\n' := by
    intro c hc he
    have hd := nat_digits_all_digit _ c hc
    subst he
    exact absurd hd (by decide)
  have hrl := read_line_digits _ hne (encode_json frame ++ '\n' :: extra)
  obtain ⟨d, tl, hd, heq⟩ := nat_digits_head (encode_json frame).length
  rw [read_frame, hstream, hrl, heq, List.cons_append]
  have hpl : parse_length? (Char.ofNat (48 + d) :: (tl ++ ['\n']))
      = some (encode_json frame).length := by
    rw [← List.cons_append, ← heq]
    exact parse_length_digits _
  simp only [hpl]
  have hlen : (encode_json frame).length + 1
      ≤ (encode_json frame ++ '\n' :: extra).length := by
    simp
  rw [if_pos hlen]
  have htake : (encode_json frame ++ '\n' :: extra).take (encode_json frame).length
      = encode_json frame := List.take_left _ _
  have hdrop1 : (encode_json frame ++ '\n' :: extra).drop (encode_json frame).length
      = '\n' :: extra := List.drop_left _ _
  have hpv : parse_value ((encode_json frame).length + 1) (encode_json frame)
      = some (frame, []) := by
    have hmain := (parse_encode_fuel ((encode_json frame).length + 1)).1 frame []
      hcanon (le_trans (json_size_le_encode frame) (Nat.le_succ _))
      (fun c hc => by simp at hc)
    rwa [List.append_nil] at hmain
  have hdrop2 : (encode_json frame ++ '\n' :: extra).drop ((encode_json frame).length + 1)
      = extra := by
    rw [← List.drop_drop, hdrop1]
    rfl
  simp only [htake, hdrop1, hdrop2, hpv, List.head?_cons]
  simp

/-- Witness: the round-trip law evaluated on a concrete reindex request
frame, followed by one extra character of stream. -/
theorem c4_decode_encode_witness :
    json_canonical (Json.obj [("body", Json.obj [("trigger", Json.str "manual")])]) = true
    ∧ read_frame
        (write_frame (Json.obj [("body", Json.obj [("trigger", Json.str "manual")])])
          ++ ['x'])
      = some (Json.obj [("body", Json.obj [("trigger", Json.str "manual")])], ['x']) :=
  ⟨by simp [json_canonical, json_canonical_members, json_canonical_keys],
   c4_decode_encode _ _
     (by simp [json_canonical, json_canonical_members, json_canonical_keys])⟩
